import Mathlib

/-!
Verification of the trading-simulation core of the repository
(`src/utils/backtester.py`, `src/market_analyzer.py`, `src/utils/risk_manager.py`,
`src/utils/market_analyzer.py`) against its natural-language specification.

Modelling conventions, used throughout:
* Python/NumPy floats are modelled as exact rationals (`ℚ`); the transcendental
  float functions `np.log` and `np.sqrt` are abstracted as an explicit
  `FloatOps` parameter.
* NumPy NaN ("undefined") values are modelled as `Option ℚ` with `none` = NaN.
* Python exceptions are modelled with `Except PyExc`; code that catches or
  re-raises is modelled by matching on the `Except` value.
* `datetime.now()` is modelled by an ambient clock `clk : ℕ → ℕ` together with
  a call counter (`tick`) threaded through the driver state.
* The `RiskManager` class is absent from the repository sources
  (`src/utils/risk_manager.py` contains a stray copy of `MarketAnalyzer` that
  imports `RiskManager` from itself); its operations are modelled from the
  spec, as marked in the individual doc comments.
-/

namespace MasterAgent

/-- Abstracted float operations: `np.log` and `np.sqrt` on rationals. -/
structure FloatOps where
  log : ℚ → ℚ
  sqrt : ℚ → ℚ

/-- The string vocabulary used for signals and position types
(`'BUY'`, `'SELL'`, `'NEUTRAL'`, `'ERROR'`, `'LONG'`, `'SHORT'`). -/
inductive Sig
  | BUY | SELL | NEUTRAL | ERROR | LONG | SHORT
deriving DecidableEq, Repr

/-- Exit reasons recorded on closed trades (`'Stop Loss'` / `'Take Profit'`). -/
inductive ExitReason
  | stopLossHit | takeProfitHit
deriving DecidableEq, Repr

/-- Python exception kinds that can escape the modelled code paths. -/
inductive PyExc
  | indexError | valueError | zeroDivisionError
deriving DecidableEq, Repr

/-- One OHLCV bar; `name` is the (time-)index of the row in the series. -/
structure Bar where
  name : ℕ
  openPrice : ℚ
  high : ℚ
  low : ℚ
  close : ℚ
  volume : ℚ
deriving DecidableEq, Repr

/-- A price series: the rows plus flags recording which of the two required
columns (`close`, `volume`) are present in the DataFrame. -/
structure Frame where
  hasClose : Bool
  hasVolume : Bool
  rows : List Bar
deriving DecidableEq, Repr

/-- Configuration dictionary with the defaults the sources read via
`config.get` (`initial_balance` is the balance the RiskManager tests pass). -/
structure Config where
  initial_capital : ℚ
  risk_per_trade : ℚ
  stop_loss_percentage : ℚ
  take_profit_percentage : ℚ
  max_positions : ℕ
  min_confidence : ℚ
  min_data_points : ℕ
  rsi_period : ℕ
  short_ma_period : ℕ
  long_ma_period : ℕ
  max_daily_loss : ℚ
  max_drawdown : ℚ
  position_sizing : ℚ
  max_position_size : ℚ
  initial_balance : ℚ
deriving DecidableEq, Repr

/-- The default configuration values stated in the sources/spec. -/
def defaultConfig : Config :=
  { initial_capital := 500
    risk_per_trade := 1/100
    stop_loss_percentage := 2/100
    take_profit_percentage := 3/100
    max_positions := 5
    min_confidence := 7/10
    min_data_points := 20
    rsi_period := 14
    short_ma_period := 9
    long_ma_period := 21
    max_daily_loss := 2
    max_drawdown := 15
    position_sizing := 1
    max_position_size := 1000
    initial_balance := 500 }

/-- `np.mean` (on an empty list NumPy yields NaN; all uses below are guarded,
so the `0` returned here for `[]` is never observed). -/
def mean (xs : List ℚ) : ℚ := xs.sum / xs.length

/-- Python `max` over a list (callers guard non-emptiness). -/
def listMax : List ℚ → ℚ
  | [] => 0
  | x :: xs => xs.foldl max x

/-- Python `min` over a list (callers guard non-emptiness). -/
def listMin : List ℚ → ℚ
  | [] => 0
  | x :: xs => xs.foldl min x

/-- The Python slice `xs[-n:]` (for `n = 0` Python yields the whole list). -/
def tailSlice (n : ℕ) (xs : List ℚ) : List ℚ :=
  if n = 0 then xs else xs.drop (xs.length - n)

/-- `np.diff`. -/
def diffs : List ℚ → List ℚ
  | x :: y :: rest => (y - x) :: diffs (y :: rest)
  | _ => []

/-- `np.where(deltas > 0, deltas, 0)`. -/
def gainsOf (ds : List ℚ) : List ℚ := ds.map (fun d => if 0 < d then d else 0)

/-- `np.where(deltas < 0, -deltas, 0)`. -/
def lossesOf (ds : List ℚ) : List ℚ := ds.map (fun d => if d < 0 then -d else 0)

/-- `np.convolve(xs, np.ones(n)/n, mode="valid")` for `n ≥ 1`.  When the
kernel is longer than the signal NumPy slides the shorter array inside the
longer one, producing `n - len(xs) + 1` copies of `sum(xs)/n`. -/
def convUniform (xs : List ℚ) (n : ℕ) : List ℚ :=
  if n ≤ xs.length then
    (List.range (xs.length - n + 1)).map (fun i => ((xs.drop i).take n).sum / n)
  else
    List.replicate (n - xs.length + 1) (xs.sum / n)

section RiskController

/-- Modelled from the spec: the state of the missing `RiskManager`
(`max_daily_loss_pct`, `max_drawdown_pct`, `position_sizing_pct`,
`max_position_size`, `current_balance`, `peak_balance`, `daily_losses`),
spec section 4.2. -/
structure RMState where
  max_daily_loss : ℚ
  max_drawdown : ℚ
  position_sizing : ℚ
  max_position_size : ℚ
  current_balance : ℚ
  peak_balance : ℚ
  daily_losses : ℚ
deriving DecidableEq, Repr

/-- Modelled from the spec: `RiskManager.__init__`, taking the limits from the
configuration and starting balance/peak at the initial balance with zero
daily losses (spec section 4.2 and `tests/test_risk_manager.py`). -/
def initRM (cfg : Config) : RMState :=
  { max_daily_loss := cfg.max_daily_loss
    max_drawdown := cfg.max_drawdown
    position_sizing := cfg.position_sizing
    max_position_size := cfg.max_position_size
    current_balance := cfg.initial_balance
    peak_balance := cfg.initial_balance
    daily_losses := 0 }

/-- Modelled from the spec: `kelly_fraction()` — Kelly fraction
`f = (p*b - (1-p)) / b` with the fixed assumed win-rate `p = 0.55` and
win/loss ratio `b = 1.5`, halved for conservatism and clamped to `[0, 1]`
(spec section 4.2). -/
def kelly_fraction : ℚ :=
  min 1 (max 0 (((55/100 : ℚ) * (3/2) - (1 - 55/100)) / (3/2) / 2))

/-- Modelled from the spec: `RiskManager.calculate_position_size` —
`risk_amount = balance * position_sizing_pct/100`;
`price_risk = |entry_price - stop_loss|`; `0` on a degenerate stop, otherwise
`min(risk_amount / price_risk * kelly_fraction, max_position_size)`
(spec section 4.2). -/
def calculate_position_size (rm : RMState) (balance entry stop : ℚ) : ℚ :=
  let risk_amount := balance * rm.position_sizing / 100
  let price_risk := |entry - stop|
  if price_risk = 0 then 0
  else min (risk_amount / price_risk * kelly_fraction) rm.max_position_size

/-- Parameter dictionary handed to `validate_trade`; `none` models a missing
key. -/
structure TradeParams where
  account_balance : Option ℚ
  entry_price : Option ℚ
  stop_loss : Option ℚ
deriving DecidableEq, Repr

/-- The fixed enumeration of `validate_trade` rejection reasons. -/
inductive VReason
  | maxDrawdownReached | dailyLossLimitReached | missingParameters | invalidPositionSize
deriving DecidableEq, Repr

/-- Result dictionary of `validate_trade`. -/
structure ValidationOut where
  is_valid : Bool
  vreason : Option VReason
  suggested_size : Option ℚ
deriving DecidableEq, Repr

/-- Modelled from the spec: `RiskManager.validate_trade` — short-circuiting
checks: drawdown limit, daily-loss limit, missing parameters, non-positive
computed size; otherwise valid with the computed size (spec section 4.2). -/
def validate_trade (rm : RMState) (tp : TradeParams) : ValidationOut :=
  if rm.max_drawdown ≤ (rm.peak_balance - rm.current_balance) / rm.peak_balance * 100 then
    { is_valid := false, vreason := some .maxDrawdownReached, suggested_size := none }
  else if rm.peak_balance * rm.max_daily_loss / 100 ≤ rm.daily_losses then
    { is_valid := false, vreason := some .dailyLossLimitReached, suggested_size := none }
  else
    match tp.account_balance, tp.entry_price, tp.stop_loss with
    | some b, some e, some s =>
        let size := calculate_position_size rm b e s
        if size ≤ 0 then
          { is_valid := false, vreason := some .invalidPositionSize, suggested_size := none }
        else
          { is_valid := true, vreason := none, suggested_size := some size }
    | _, _, _ =>
        { is_valid := false, vreason := some .missingParameters, suggested_size := none }

/-- Modelled from the spec: `RiskManager.record_trade_result({pnl})` (the
tests call it `update_metrics`) — `current_balance += pnl`; on a loss
`daily_losses += |pnl|`; `peak_balance = max(peak_balance, current_balance)`
(spec section 4.2, `tests/test_risk_manager.py::test_update_metrics`). -/
def record_trade_result (rm : RMState) (pnl : ℚ) : RMState :=
  let bal := rm.current_balance + pnl
  { rm with
    current_balance := bal
    daily_losses := if pnl < 0 then rm.daily_losses + |pnl| else rm.daily_losses
    peak_balance := max rm.peak_balance bal }

end RiskController

section IndicatorEngine

/-- Trend classification labels of `analyze_trend`. -/
inductive TrendDir
  | STRONG_UPTREND | WEAK_UPTREND | WEAK_DOWNTREND | STRONG_DOWNTREND | NEUTRAL
deriving DecidableEq, Repr

/-- Result dictionary of `analyze_trend` (`np.nan` moving averages are
`none`). -/
structure TrendInfo where
  direction : TrendDir
  strength : ℚ
  short_ma : Option ℚ
  long_ma : Option ℚ
deriving DecidableEq, Repr

/-- Result dictionary of `calculate_momentum` in `src/market_analyzer.py`. -/
structure MomInfo where
  rsi : Option ℚ
  overbought : Bool
  oversold : Bool
  price_roc : Option ℚ
deriving DecidableEq, Repr

/-- Result dictionary of `calculate_volatility` in `src/market_analyzer.py`. -/
structure VolInfo where
  daily_volatility : Option ℚ
  recent_volatility : Option ℚ
  price_range : Option ℚ
deriving DecidableEq, Repr

/-- Volume classification of `analyze_volume`. -/
inductive VolTrend
  | HIGH | LOW | NORMAL
deriving DecidableEq, Repr

/-- Result of `analyze_volume` (`volume_ratio`/`volume_trend`, or the
`NO_DATA` dictionary when the column is missing). -/
inductive VolumeInfo
  | noData
  | info (ratioVal : ℚ) (trendVal : VolTrend)
deriving DecidableEq, Repr

/-- `MarketAnalyzer._calculate_sma`: `[]` when the series is shorter than the
window, otherwise the valid-mode uniform convolution (`np.convolve` raises
`ValueError` on an empty kernel). -/
def calculate_sma (xs : List ℚ) (period : ℕ) : Except PyExc (List ℚ) :=
  if xs.length < period then .ok []
  else if period = 0 then .error .valueError
  else .ok (convUniform xs period)

/-- `MarketAnalyzer.analyze_trend` (src/market_analyzer.py): short/long SMAs,
trend strength `(short - long)/long * 100`, classification by strength, and
the graceful `NEUTRAL` result when either average is empty. -/
def analyze_trend (cfg : Config) (closes : List ℚ) : Except PyExc TrendInfo :=
  match calculate_sma closes cfg.short_ma_period with
  | .error e => .error e
  | .ok short_ma =>
    match calculate_sma closes cfg.long_ma_period with
    | .error e => .error e
    | .ok long_ma =>
      match short_ma.getLast?, long_ma.getLast? with
      | some s, some l =>
        let ts := (s - l) / l * 100
        .ok { direction :=
                if 1 < ts then .STRONG_UPTREND
                else if 0 < ts then .WEAK_UPTREND
                else if -1 < ts then .WEAK_DOWNTREND
                else .STRONG_DOWNTREND
              strength := |ts|
              short_ma := some s
              long_ma := some l }
      | _, _ =>
        .ok { direction := .NEUTRAL, strength := 0, short_ma := none, long_ma := none }

/-- `np.pad(xs, (k, 0), mode="edge")`: replicate the first element `k` times
in front (on the empty array NumPy raises; that case is unreachable below). -/
def padEdgeFront (k : ℕ) (xs : List (Option ℚ)) : List (Option ℚ) :=
  match xs with
  | [] => []
  | x :: _ => List.replicate k x ++ xs

/-- `MarketAnalyzer._calculate_rsi` (src/market_analyzer.py): NaN array when
the series is shorter than the period, otherwise valid-mode convolution
averages of gains and losses, `rs = avg_gain / where(avg_loss == 0, 1,
avg_loss)`, `rsi = 100 - 100/(1+rs)`, edge-padded at the front to the input
length. -/
def calculate_rsi (period : ℕ) (prices : List ℚ) : Except PyExc (List (Option ℚ)) :=
  if prices.length < period then .ok (List.replicate prices.length none)
  else if period = 0 then .error .valueError
  else
    let ds := diffs prices
    let ag := convUniform (gainsOf ds) period
    let al := convUniform (lossesOf ds) period
    let rsiList := List.zipWith
      (fun g l => some (100 - 100 / (1 + g / (if l = 0 then 1 else l)))) ag al
    .ok (padEdgeFront (prices.length - rsiList.length) rsiList)

/-- The 5-bar rate of change `(prices[-1] - prices[-5]) / prices[-5] * 100`
(callers guard `len ≥ 5`). -/
def rocOf (prices : List ℚ) : ℚ :=
  let p5 := (prices.drop (prices.length - 5)).headD 0
  (prices.getLastD 0 - p5) / p5 * 100

/-- `MarketAnalyzer.calculate_momentum` (src/market_analyzer.py): reads
`rsi[-1]` (an `IndexError` on an empty array), the over/oversold flags
(NaN comparisons are false), and the 5-bar ROC when enough history exists. -/
def calculate_momentum (period : ℕ) (prices : List ℚ) : Except PyExc MomInfo :=
  match calculate_rsi period prices with
  | .error e => .error e
  | .ok rsiArr =>
    match rsiArr.getLast? with
    | none => .error .indexError
    | some lastRsi =>
      .ok { rsi := lastRsi
            overbought := match lastRsi with | some v => decide (70 < v) | none => false
            oversold := match lastRsi with | some v => decide (v < 30) | none => false
            price_roc := if 5 ≤ prices.length then some (rocOf prices) else none }

/-- `np.std` (population): square root of the mean squared deviation, with
the square root abstracted in `FloatOps`. -/
def stdQ (ops : FloatOps) (xs : List ℚ) : ℚ :=
  ops.sqrt (mean (xs.map (fun x => (x - mean xs) * (x - mean xs))))

/-- `MarketAnalyzer.calculate_volatility` (src/market_analyzer.py):
log-return standard deviation annualized by `√252`, the 20-bar recent
variant, and the 20-bar price range; all NaN when fewer than 2 prices. -/
def calculate_volatility (ops : FloatOps) (prices : List ℚ) : VolInfo :=
  let returns := diffs (prices.map ops.log)
  if returns.length = 0 then
    { daily_volatility := none, recent_volatility := none, price_range := none }
  else
    { daily_volatility := some (stdQ ops returns * ops.sqrt 252)
      recent_volatility := some (stdQ ops (tailSlice 20 returns) * ops.sqrt 252)
      price_range := some ((listMax (tailSlice 20 prices) - listMin (tailSlice 20 prices))
        / listMin (tailSlice 20 prices) * 100) }

/-- `MarketAnalyzer.analyze_volume` (src/market_analyzer.py): ratio of the
current volume to the trailing-20 average and its HIGH/LOW/NORMAL label;
`volume[-1]` raises on an empty series. -/
def analyze_volume (f : Frame) : Except PyExc VolumeInfo :=
  if f.hasVolume = false then .ok .noData
  else
    let vols := f.rows.map Bar.volume
    match vols.getLast? with
    | none => .error .indexError
    | some cur =>
      let avg := mean (tailSlice 20 vols)
      .ok (.info (cur / avg)
        (if avg * (3/2) < cur then .HIGH
         else if cur < avg * (1/2) then .LOW
         else .NORMAL))

/-- Signal dictionary returned by `generate_signal` (its `timestamp` is the
second `datetime.now()` of an analysis call). -/
structure SignalOut where
  signal : Sig
  confidence : ℚ
  tstamp : ℕ
deriving DecidableEq, Repr

/-- `analysis["volume_analysis"].get("volume_ratio", 1)`. -/
def ratioOf : VolumeInfo → ℚ
  | .noData => 1
  | .info r _ => r

/-- The time-independent part of `generate_signal`
(src/market_analyzer.py): BUY on any uptrend with RSI < 70, SELL on any
downtrend with RSI > 30, else NEUTRAL; confidence `strength * 0.01`, scaled
by `min(volume_ratio, 2)` and capped at 1. -/
def signalCore (tr : TrendInfo) (mo : MomInfo) (vo : VolumeInfo) : Sig × ℚ :=
  let rsiLt70 : Bool := match mo.rsi with | some r => decide (r < 70) | none => false
  let rsiGt30 : Bool := match mo.rsi with | some r => decide (30 < r) | none => false
  let base : Sig × ℚ :=
    if (tr.direction == .STRONG_UPTREND || tr.direction == .WEAK_UPTREND) && rsiLt70 then
      (.BUY, tr.strength * (1/100))
    else if (tr.direction == .STRONG_DOWNTREND || tr.direction == .WEAK_DOWNTREND) && rsiGt30 then
      (.SELL, tr.strength * (1/100))
    else (.NEUTRAL, 0)
  (base.1, min (base.2 * min (ratioOf vo) 2) 1)

/-- `MarketAnalyzer.generate_signal` (src/market_analyzer.py), stamping the
current time. -/
def generate_signal (t : ℕ) (tr : TrendInfo) (mo : MomInfo) (vo : VolumeInfo) : SignalOut :=
  { signal := (signalCore tr mo vo).1, confidence := (signalCore tr mo vo).2, tstamp := t }

/-- Which required column is missing. -/
inductive MissingCol
  | closeCol | volumeCol
deriving DecidableEq, Repr

/-- The `reason` strings an analysis dictionary can carry. -/
inductive Reason
  | missingColumn (c : MissingCol)
  | insufficientData
  | analysisError (e : PyExc)
deriving DecidableEq, Repr

/-- The analysis dictionary produced by `analyze_market`; the early-return
dictionaries carry only `signal`/`confidence`/`reason` (other keys `none`).
`tstamp` models the `timestamp` key, which on the success path holds the
`generate_signal` timestamp (it overwrites the wrapper's own). -/
structure Analysis where
  signal : Sig
  confidence : ℚ
  reason : Option Reason
  trend : Option TrendInfo
  momentum : Option MomInfo
  volatility : Option VolInfo
  volume_info : Option VolumeInfo
  tstamp : Option ℕ
  validation : Option ValidationOut
deriving DecidableEq, Repr

/-- `{"signal": "ERROR", "confidence": 0, "reason": r}`. -/
def errorAnalysis (r : Reason) : Analysis :=
  { signal := .ERROR, confidence := 0, reason := some r, trend := none, momentum := none
    volatility := none, volume_info := none, tstamp := none, validation := none }

/-- `{"signal": "NEUTRAL", "confidence": 0, "reason": r}`. -/
def neutralAnalysis (r : Reason) : Analysis :=
  { signal := .NEUTRAL, confidence := 0, reason := some r, trend := none, momentum := none
    volatility := none, volume_info := none, tstamp := none, validation := none }

/-- The indicator computations of the `analyze_market` try-block, in source
order (trend, momentum, volatility, volume), before any `datetime.now()`
call. -/
def analyzePre (cfg : Config) (ops : FloatOps) (f : Frame) :
    Except PyExc (TrendInfo × MomInfo × VolInfo × VolumeInfo) :=
  let closes := f.rows.map Bar.close
  match analyze_trend cfg closes with
  | .error e => .error e
  | .ok tr =>
    match calculate_momentum cfg.rsi_period closes with
    | .error e => .error e
    | .ok mo =>
      let vo := calculate_volatility ops closes
      match analyze_volume f with
      | .error e => .error e
      | .ok vl => .ok (tr, mo, vo, vl)

/-- The body of the `analyze_market` try-block
(src/utils/market_analyzer.py, methods per src/market_analyzer.py as
indicated by its "rest of your existing methods" placeholder): indicators,
signal synthesis, and the `validate_trade` risk assessment on the last close
with a `0.95` example stop. -/
def analyze_body (cfg : Config) (rmA : RMState) (ops : FloatOps) (t : ℕ) (f : Frame) :
    Except PyExc Analysis :=
  match analyzePre cfg ops f with
  | .error e => .error e
  | .ok (tr, mo, vo, vl) =>
    let sg := generate_signal t tr mo vl
    match (f.rows.map Bar.close).getLast? with
    | none => .error .indexError
    | some lastClose =>
      let va := validate_trade rmA
        { account_balance := some rmA.current_balance
          entry_price := some lastClose
          stop_loss := some (lastClose * (95/100)) }
      .ok { signal := sg.signal, confidence := sg.confidence, reason := none
            trend := some tr, momentum := some mo, volatility := some vo
            volume_info := some vl, tstamp := some sg.tstamp, validation := some va }

/-- Number of `datetime.now()` calls an `analyze_market` invocation consumes
on its try-path (two once the analysis dictionary is completed, zero if an
indicator raised first). -/
def analyzeTicks (cfg : Config) (ops : FloatOps) (f : Frame) : ℕ :=
  if f.hasClose = false then 0
  else if f.hasVolume = false then 0
  else if f.rows.length < cfg.min_data_points then 0
  else
    match analyzePre cfg ops f with
    | .error _ => 0
    | .ok _ => 2

/-- `MarketAnalyzer.analyze_market` (wrapper of
src/utils/market_analyzer.py): missing-column and insufficient-data early
returns, then the try-block with unexpected exceptions converted to an
`ERROR` analysis. -/
def analyze_market (cfg : Config) (rmA : RMState) (ops : FloatOps) (t : ℕ) (f : Frame) :
    Analysis :=
  if f.hasClose = false then errorAnalysis (.missingColumn .closeCol)
  else if f.hasVolume = false then errorAnalysis (.missingColumn .volumeCol)
  else if f.rows.length < cfg.min_data_points then neutralAnalysis .insufficientData
  else
    match analyze_body cfg rmA ops t f with
    | .ok a => a
    | .error e => errorAnalysis (.analysisError e)

/-- The RSI computation of `calculate_momentum` in
`src/utils/risk_manager.py` (lines 126-139): mean gain and mean loss over
the trailing `rsi_period` deltas, saturating at exactly 100 when the mean
loss is 0; `none` models the NaN produced when the series has no deltas. -/
def momentumRsi (period : ℕ) (prices : List ℚ) : Option ℚ :=
  let ds := diffs prices
  if ds.isEmpty then none
  else
    let avg_gain := mean (tailSlice period (gainsOf ds))
    let avg_loss := mean (tailSlice period (lossesOf ds))
    if avg_loss = 0 then some 100
    else some (100 - 100 / (1 + avg_gain / avg_loss))

/-- `rsi[-1]` of `_calculate_rsi` in `src/market_analyzer.py` as read by its
`calculate_momentum`: `none` when the array is empty (where the source would
raise `IndexError`) or holds NaN. -/
def vecRsiLast (period : ℕ) (prices : List ℚ) : Option ℚ :=
  match calculate_rsi period prices with
  | .ok arr =>
    match arr.getLast? with
    | some v => v
    | none => none
  | .error _ => none

/-- Mean loss over the trailing RSI window ("the window contains no losses"
is `lossWindowMean = 0`). -/
def lossWindowMean (period : ℕ) (prices : List ℚ) : ℚ :=
  mean (tailSlice period (lossesOf (diffs prices)))

/-- Mean gain over the trailing RSI window. -/
def gainWindowMean (period : ℕ) (prices : List ℚ) : ℚ :=
  mean (tailSlice period (gainsOf (diffs prices)))

/-- A strictly rising 15-bar close series (14 gains, no losses). -/
def upPrices : List ℚ := [1, 2, 3, 4, 5, 6, 7, 8, 9, 10, 11, 12, 13, 14, 15]

end IndicatorEngine

section SimulationDriver

/-- `TradePosition` (src/utils/backtester.py): the dataclass documents
`type` as `'LONG'` or `'SHORT'`; `metadata` holds `{'analysis': analysis}`. -/
structure Position where
  type : Sig
  entry_price : ℚ
  size : ℚ
  stop_loss : ℚ
  take_profit : ℚ
  entry_time : ℕ
  entry_capital : ℚ
  metadata : Analysis
deriving DecidableEq, Repr

/-- A trade record appended by `_close_position`; `exit_time` is
`datetime.now()`. -/
structure TradeRecord where
  type : Sig
  entry_price : ℚ
  exit_price : ℚ
  size : ℚ
  pnl : ℚ
  return_pct : ℚ
  entry_time : ℕ
  exit_time : ℕ
  exit_reason : ExitReason
  metadata : Analysis
deriving DecidableEq, Repr

/-- The mutable state of a `Backtester` during a run.  `tick` counts the
`datetime.now()` calls made so far (the ambient clock is `clk : ℕ → ℕ`);
`rm` is the driver's own `RiskManager` instance. -/
structure DState where
  current_capital : ℚ
  positions : List Position
  trades_history : List TradeRecord
  equity_curve : List ℚ
  drawdowns : List ℚ
  tick : ℕ
  rm : RMState
deriving DecidableEq, Repr

/-- `Backtester.__init__` / `_reset_state`. -/
def initState (cfg : Config) : DState :=
  { current_capital := cfg.initial_capital
    positions := []
    trades_history := []
    equity_curve := [cfg.initial_capital]
    drawdowns := []
    tick := 0
    rm := initRM cfg }

/-- `Backtester._calculate_stop_loss`: `entry * (1 - pct)` when the signal
string equals `'LONG'`, else `entry * (1 + pct)`. -/
def calculate_stop_loss (cfg : Config) (signal : Sig) (entry : ℚ) : ℚ :=
  if signal = .LONG then entry * (1 - cfg.stop_loss_percentage)
  else entry * (1 + cfg.stop_loss_percentage)

/-- `Backtester._calculate_take_profit`: `entry * (1 + pct)` when the signal
string equals `'LONG'`, else `entry * (1 - pct)`. -/
def calculate_take_profit (cfg : Config) (signal : Sig) (entry : ℚ) : ℚ :=
  if signal = .LONG then entry * (1 + cfg.take_profit_percentage)
  else entry * (1 - cfg.take_profit_percentage)

/-- `Backtester._should_execute_trade`: reject above the open-position cap,
otherwise require a BUY/SELL signal with confidence strictly above
`min_confidence`. -/
def should_execute_trade (cfg : Config) (s : DState) (a : Analysis) : Bool :=
  if cfg.max_positions ≤ s.positions.length then false
  else (a.signal == .BUY || a.signal == .SELL) && decide (cfg.min_confidence < a.confidence)

/-- `Backtester._execute_trade`: size the position from the risk manager
using the current capital and the computed stop, then append the new
position (entry at `current_bar['close']`, `entry_time = current_bar.name`).
The `risk_amount` local of the source is unused there and omitted. -/
def execute_trade (cfg : Config) (a : Analysis) (bar : Bar) (s : DState) : DState :=
  let stop_loss := calculate_stop_loss cfg a.signal bar.close
  let position_size := calculate_position_size s.rm s.current_capital bar.close stop_loss
  let take_profit := calculate_take_profit cfg a.signal bar.close
  { s with positions := s.positions ++
      [{ type := a.signal, entry_price := bar.close, size := position_size
         stop_loss := stop_loss, take_profit := take_profit, entry_time := bar.name
         entry_capital := s.current_capital, metadata := a }] }

/-- `Backtester._hit_stop_loss`: for `'LONG'` the bar low at or below the
stop, otherwise the bar high at or above it. -/
def hit_stop_loss (p : Position) (bar : Bar) : Bool :=
  if p.type = .LONG then bar.low ≤ p.stop_loss else p.stop_loss ≤ bar.high

/-- `Backtester._hit_take_profit`: for `'LONG'` the bar high at or above the
target, otherwise the bar low at or below it. -/
def hit_take_profit (p : Position) (bar : Bar) : Bool :=
  if p.type = .LONG then p.take_profit ≤ bar.high else bar.low ≤ p.take_profit

/-- The capital/trade-record/tick part of `Backtester._close_position`
(everything except the `positions.remove`): realize the PnL, add it to the
capital, and append the trade record (whose `return_pct` division raises
`ZeroDivisionError` when `entry_capital` is zero; `exit_time` consumes one
clock tick). -/
def close_canon (clk : ℕ → ℕ) (p : Position) (exit_price : ℚ) (reason : ExitReason)
    (s : DState) : Except PyExc DState :=
  let pnl := if p.type = .LONG then (exit_price - p.entry_price) * p.size
             else (p.entry_price - exit_price) * p.size
  if p.entry_capital = 0 then .error .zeroDivisionError
  else .ok { s with
    current_capital := s.current_capital + pnl
    trades_history := s.trades_history ++
      [{ type := p.type, entry_price := p.entry_price, exit_price := exit_price
         size := p.size, pnl := pnl, return_pct := pnl / p.entry_capital * 100
         entry_time := p.entry_time, exit_time := clk s.tick, exit_reason := reason
         metadata := p.metadata }]
    tick := s.tick + 1 }

/-- `Backtester._close_position`: the canonical update followed by
`self.positions.remove(position)` (removal of the first list element equal
to the given one, matching Python `list.remove` with dataclass equality). -/
def close_position (clk : ℕ → ℕ) (p : Position) (exit_price : ℚ) (reason : ExitReason)
    (s : DState) : Except PyExc DState :=
  match close_canon clk p exit_price reason s with
  | .error e => .error e
  | .ok s1 => .ok { s1 with positions := s1.positions.eraseP (fun q => decide (q = p)) }

/-- The loop body of `Backtester._process_open_positions` over the snapshot
`self.positions[:]`: stop-loss is checked before take-profit, and a hit
closes at the stored stop/target level. -/
def processGo (clk : ℕ → ℕ) (bar : Bar) : List Position → DState → Except PyExc DState
  | [], s => .ok s
  | p :: rest, s =>
    if hit_stop_loss p bar then
      match close_position clk p p.stop_loss .stopLossHit s with
      | .error e => .error e
      | .ok s1 => processGo clk bar rest s1
    else if hit_take_profit p bar then
      match close_position clk p p.take_profit .takeProfitHit s with
      | .error e => .error e
      | .ok s1 => processGo clk bar rest s1
    else processGo clk bar rest s

/-- `Backtester._process_open_positions`. -/
def process_open_positions (clk : ℕ → ℕ) (bar : Bar) (s : DState) : Except PyExc DState :=
  processGo clk bar s.positions s

/-- `Backtester._update_metrics`: append the capital to the equity curve and
the drawdown fraction from the running peak (a Python `ZeroDivisionError`
when the peak is zero). -/
def update_metrics (s : DState) : Except PyExc DState :=
  let eq := s.equity_curve ++ [s.current_capital]
  let peak := listMax eq
  if peak = 0 then .error .zeroDivisionError
  else .ok { s with
    equity_curve := eq
    drawdowns := s.drawdowns ++ [(peak - s.current_capital) / peak] }

/-- `Backtester._calculate_trade_metrics`: zero defaults on an empty
history; win rate over all trades, mean win/loss over the winning/losing
subsets, and the largest win/loss as max/min PnL over all trades. -/
def calculate_trade_metrics (trades : List TradeRecord) : ℚ × ℚ × ℚ × ℚ × ℚ :=
  if trades.isEmpty then (0, 0, 0, 0, 0)
  else
    let wins := trades.filter (fun t => decide (0 < t.pnl))
    let losses := trades.filter (fun t => decide (t.pnl < 0))
    ((wins.length : ℚ) / trades.length,
     if wins.isEmpty then 0 else mean (wins.map TradeRecord.pnl),
     if losses.isEmpty then 0 else mean (losses.map TradeRecord.pnl),
     listMax (trades.map TradeRecord.pnl),
     listMin (trades.map TradeRecord.pnl))

/-- The `trade_metrics` report group. -/
structure TradeMetrics where
  win_rate : ℚ
  avg_win : ℚ
  avg_loss : ℚ
  largest_win : ℚ
  largest_loss : ℚ
deriving DecidableEq, Repr

/-- `calculate_trade_metrics` packaged as the report dictionary. -/
def trade_metrics_of (trades : List TradeRecord) : TradeMetrics :=
  let m := calculate_trade_metrics trades
  { win_rate := m.1, avg_win := m.2.1, avg_loss := m.2.2.1
    largest_win := m.2.2.2.1, largest_loss := m.2.2.2.2 }

/-- Insertion into a sorted list (ascending). -/
def insertQ (x : ℚ) : List ℚ → List ℚ
  | [] => [x]
  | y :: ys => if x ≤ y then x :: y :: ys else y :: insertQ x ys

/-- Ascending sort, as `np.percentile` sorts its input. -/
def sortQ (xs : List ℚ) : List ℚ := xs.foldr insertQ []

/-- `np.percentile(xs, q)` with linear interpolation (the NumPy default). -/
def percentileQ (xs : List ℚ) (q : ℚ) : ℚ :=
  let sorted := sortQ xs
  let n := sorted.length
  let rank := q / 100 * ((n : ℚ) - 1)
  let i := rank.floor.toNat
  if i + 1 < n then
    sorted.getD i 0 + (rank - (i : ℚ)) * (sorted.getD (i + 1) 0 - sorted.getD i 0)
  else sorted.getD (n - 1) 0

/-- `Backtester._calculate_sharpe_ratio` with the default risk-free rate. -/
def calculate_sharpe (ops : FloatOps) (returns : List ℚ) : ℚ :=
  if returns.length = 0 then 0
  else
    let excess := returns.map (fun r => r - (1/50) / 252)
    if stdQ ops excess = 0 then 0
    else mean excess / stdQ ops excess * ops.sqrt 252

/-- `Backtester._calculate_sortino_ratio` with the default risk-free rate;
`none` models the `np.inf` results. -/
def calculate_sortino (ops : FloatOps) (returns : List ℚ) : Option ℚ :=
  if returns.length = 0 then some 0
  else
    let excess := returns.map (fun r => r - (1/50) / 252)
    let downside := excess.filter (fun x => decide (x < 0))
    if downside.length = 0 then none
    else if stdQ ops downside = 0 then none
    else some (mean excess / stdQ ops downside * ops.sqrt 252)

/-- `Backtester._calculate_var` at the default 95% confidence. -/
def calculate_var (returns : List ℚ) : ℚ :=
  if returns.length = 0 then 0 else percentileQ returns ((1 - 95/100) * 100)

/-- `Backtester._calculate_expected_shortfall` at the default 95%
confidence. -/
def calculate_expected_shortfall (returns : List ℚ) : ℚ :=
  if returns.length = 0 then 0
  else mean ((returns.filter (fun x => decide (x ≤ calculate_var returns))))

/-- The `overview` report group. -/
structure Overview where
  initial_capital : ℚ
  final_capital : ℚ
  total_return_pct : ℚ
  total_trades : ℕ
  winning_trades : ℕ
deriving DecidableEq, Repr

/-- The `risk_metrics` report group (`sortino` is `none` for `np.inf`). -/
structure RiskMetrics where
  sharpe : ℚ
  sortino : Option ℚ
  max_drawdown : ℚ
  var : ℚ
  expected_shortfall : ℚ
deriving DecidableEq, Repr

/-- The full backtest report. -/
structure Report where
  overview : Overview
  risk_metrics : RiskMetrics
  trade_metrics : TradeMetrics
  equity_curve : List ℚ
  drawdowns : List ℚ
  trades : List TradeRecord
deriving DecidableEq, Repr

/-- `Backtester._generate_backtest_report` (the `total_return_pct` division
raises `ZeroDivisionError` when the initial capital is zero). -/
def generate_backtest_report (cfg : Config) (ops : FloatOps) (s : DState) :
    Except PyExc Report :=
  let returns := s.trades_history.map TradeRecord.return_pct
  if cfg.initial_capital = 0 then .error .zeroDivisionError
  else .ok
    { overview :=
        { initial_capital := cfg.initial_capital
          final_capital := s.current_capital
          total_return_pct := (s.current_capital / cfg.initial_capital - 1) * 100
          total_trades := s.trades_history.length
          winning_trades := (s.trades_history.filter (fun t => decide (0 < t.pnl))).length }
      risk_metrics :=
        { sharpe := calculate_sharpe ops returns
          sortino := calculate_sortino ops returns
          max_drawdown := if s.drawdowns.isEmpty then 0 else listMax s.drawdowns
          var := calculate_var returns
          expected_shortfall := calculate_expected_shortfall returns }
      trade_metrics := trade_metrics_of s.trades_history
      equity_curve := s.equity_curve
      drawdowns := s.drawdowns
      trades := s.trades_history }

/-- One iteration of the `run_backtest` main loop at the point where `seen`
is `data[:i+1]` and `next` is `data[i+1]`: process open positions against
the next bar, analyze the data seen so far, open a trade if the gate passes,
and update equity metrics. -/
def barStep (cfg : Config) (rmA : RMState) (ops : FloatOps) (clk : ℕ → ℕ)
    (hasClose hasVolume : Bool) (seen : List Bar) (next : Bar) (s : DState) :
    Except PyExc DState :=
  match process_open_positions clk next s with
  | .error e => .error e
  | .ok s1 =>
    let curFrame : Frame := { hasClose := hasClose, hasVolume := hasVolume, rows := seen }
    let a := analyze_market cfg rmA ops (clk (s1.tick + 1)) curFrame
    let s2 := { s1 with tick := s1.tick + analyzeTicks cfg ops curFrame }
    let s3 := if should_execute_trade cfg s2 a then execute_trade cfg a next s2 else s2
    update_metrics s3

/-- The `for i in range(len(data)-1)` loop of `run_backtest`, structurally:
`seen` holds `data[:i+1]`, `rest` the bars from `i+1` on. -/
def runLoop (cfg : Config) (rmA : RMState) (ops : FloatOps) (clk : ℕ → ℕ)
    (hasClose hasVolume : Bool) (seen : List Bar) :
    List Bar → DState → Except PyExc DState
  | [], s => .ok s
  | next :: rest, s =>
    match barStep cfg rmA ops clk hasClose hasVolume seen next s with
    | .error e => .error e
    | .ok s1 => runLoop cfg rmA ops clk hasClose hasVolume (seen ++ [next]) rest s1

/-- The body of `run_backtest`'s try-block: reset the state, run the loop,
and produce the report. -/
def run_body (cfg : Config) (ops : FloatOps) (clk : ℕ → ℕ) (f : Frame) :
    Except PyExc Report :=
  let s0 := initState cfg
  let loopResult :=
    match f.rows with
    | [] => Except.ok s0
    | b :: rest => runLoop cfg (initRM cfg) ops clk f.hasClose f.hasVolume [b] rest s0
  match loopResult with
  | .error e => .error e
  | .ok sEnd => generate_backtest_report cfg ops sEnd

/-- `Backtester.run_backtest`: the try-block body with the `except` handler
that logs and re-raises (so errors propagate unchanged). -/
def run_backtest (cfg : Config) (ops : FloatOps) (clk : ℕ → ℕ) (f : Frame) :
    Except PyExc Report :=
  match run_body cfg ops clk f with
  | .ok r => .ok r
  | .error e => .error e

end SimulationDriver

section Stripping

/-- Erase the wall-clock timestamp of an analysis dictionary. -/
def stripA (a : Analysis) : Analysis := { a with tstamp := none }

/-- Erase the wall-clock data reachable from a position. -/
def stripPos (p : Position) : Position := { p with metadata := stripA p.metadata }

/-- Erase the wall-clock data of a trade record (`exit_time` and the
analysis timestamp in its metadata). -/
def stripTrade (t : TradeRecord) : TradeRecord :=
  { t with exit_time := 0, metadata := stripA t.metadata }

/-- Erase all wall-clock data from a driver state. -/
def stripState (s : DState) : DState :=
  { s with positions := s.positions.map stripPos
           trades_history := s.trades_history.map stripTrade }

/-- Erase all wall-clock data from a report. -/
def stripReport (r : Report) : Report := { r with trades := r.trades.map stripTrade }

end Stripping

section ConcreteInputs

/-- A constant clock. -/
def clkConst (n : ℕ) : ℕ → ℕ := fun _ => n

/-- Concrete float operations for evaluating witnesses (the identity stands
in for the abstracted `np.log`/`np.sqrt`). -/
def idOps : FloatOps := { log := fun x => x, sqrt := fun x => x }

/-- Build a bar with the given index, high, low, close and volume. -/
def mkBar (n : ℕ) (h l c v : ℚ) : Bar :=
  { name := n, openPrice := c, high := h, low := l, close := c, volume := v }

/-- A small configuration under which the default data below produces an
approved signal: three-bar warmup, two-bar RSI, 1/2-bar moving averages and
a zero confidence threshold. -/
def cexCfg : Config :=
  { defaultConfig with
    min_data_points := 3
    rsi_period := 2
    short_ma_period := 1
    long_ma_period := 2
    min_confidence := 0 }

/-- Five bars: flat, a small rise at index 2 (producing a BUY at index 3),
and a final bar whose high pierces the computed stop level. -/
def cexFrame : Frame :=
  { hasClose := true, hasVolume := true
    rows := [mkBar 0 100 100 100 1000, mkBar 1 100 100 100 1000,
             mkBar 2 101 101 101 1000, mkBar 3 100 100 100 1000,
             mkBar 4 103 99 100 1000] }

/-- An approved BUY analysis as `_should_execute_trade` would accept
(signal `'BUY'`, confidence 0.8). -/
def buyAnalysis : Analysis :=
  { signal := .BUY, confidence := 4/5, reason := none, trend := none, momentum := none
    volatility := none, volume_info := none, tstamp := some 0, validation := none }

/-- The `'LONG'` position of `tests/test_backtester.py::test_position_closing`
(entry 100, size 1, stop 98, target 103, entry capital 500). -/
def longPos : Position :=
  { type := .LONG, entry_price := 100, size := 1, stop_loss := 98, take_profit := 103
    entry_time := 0, entry_capital := 500, metadata := neutralAnalysis .insufficientData }

/-- A bar whose low pierces 98 and whose high pierces 103 (both exit
conditions hold). -/
def bothHitBar : Bar := mkBar 1 104 97 100 1000

/-- A bar whose low pierces the stop far deeper (overshoot). -/
def deepStopBar : Bar := mkBar 1 99 50 60 1000

/-- A bar whose low touches the stop exactly. -/
def touchStopBar : Bar := mkBar 1 99 98 98 1000

/-- A configuration with zero initial capital (drives `_update_metrics` into
`ZeroDivisionError`). -/
def zeroCapCfg : Config := { defaultConfig with initial_capital := 0 }

/-- A two-bar frame (one loop iteration). -/
def twoBarFrame : Frame :=
  { hasClose := true, hasVolume := true
    rows := [mkBar 0 100 100 100 1000, mkBar 1 100 100 100 1000] }

/-- A configuration whose warmup threshold is zero, so the analyzer reaches
its try-block even on an empty series (where `rsi[-1]` raises). -/
def noMinCfg : Config := { defaultConfig with min_data_points := 0 }

/-- The empty frame with both columns present. -/
def emptyFrame : Frame := { hasClose := true, hasVolume := true, rows := [] }

/-- The first three bars of `cexFrame`. -/
def rows3 : List Bar := [mkBar 0 100 100 100 1000, mkBar 1 100 100 100 1000, mkBar 2 101 101 101 1000]

/-- The three-bar prefix frame seen at loop index 2. -/
def frame3 : Frame := { hasClose := true, hasVolume := true, rows := rows3 }

/-- Trend of the three-bar prefix. -/
def trend3 : TrendInfo :=
  { direction := .WEAK_UPTREND, strength := 100/201, short_ma := some 101, long_ma := some (201/2) }

/-- Momentum of the three-bar prefix. -/
def mom3 : MomInfo := { rsi := some (100/3), overbought := false, oversold := false, price_roc := none }

/-- Volatility of the three-bar prefix under `idOps`. -/
def vol3 : VolInfo := { daily_volatility := some 63, recent_volatility := some 63, price_range := some 1 }

/-- The full analysis of the three-bar prefix (a BUY at confidence 1/201),
stamped with time `t`. -/
def an3 (t : ℕ) : Analysis :=
  { signal := .BUY, confidence := 1/201, reason := none, trend := some trend3, momentum := some mom3
    volatility := some vol3, volume_info := some (.info 1 .NORMAL), tstamp := some t
    validation := some { is_valid := true, vreason := none, suggested_size := some (25/202) } }

/-- The first four bars of `cexFrame`. -/
def rows4 : List Bar := rows3 ++ [mkBar 3 100 100 100 1000]

/-- The four-bar prefix frame seen at loop index 3. -/
def frame4 : Frame := { hasClose := true, hasVolume := true, rows := rows4 }

/-- Trend of the four-bar prefix. -/
def trend4 : TrendInfo :=
  { direction := .WEAK_DOWNTREND, strength := 100/201, short_ma := some 100, long_ma := some (201/2) }

/-- Momentum of the four-bar prefix. -/
def mom4 : MomInfo := { rsi := some 50, overbought := false, oversold := false, price_roc := none }

/-- Volatility of the four-bar prefix under `idOps`. -/
def vol4 : VolInfo := { daily_volatility := some 168, recent_volatility := some 168, price_range := some 1 }

/-- The full analysis of the four-bar prefix (a SELL at confidence 1/201),
stamped with time `t`. -/
def an4 (t : ℕ) : Analysis :=
  { signal := .SELL, confidence := 1/201, reason := none, trend := some trend4, momentum := some mom4
    volatility := some vol4, volume_info := some (.info 1 .NORMAL), tstamp := some t
    validation := some { is_valid := true, vreason := none, suggested_size := some (1/8) } }

/-- The risk-manager instance of the small configuration. -/
def rmX : RMState := initRM cexCfg

/-- Bars of `cexFrame`, named. -/
def b0 : Bar := mkBar 0 100 100 100 1000

/-- Second bar of `cexFrame`. -/
def b1 : Bar := mkBar 1 100 100 100 1000

/-- Third bar of `cexFrame` (the small rise). -/
def b2 : Bar := mkBar 2 101 101 101 1000

/-- Fourth bar of `cexFrame` (the entry bar). -/
def b3 : Bar := mkBar 3 100 100 100 1000

/-- Fifth bar of `cexFrame` (its high pierces the stop at 102). -/
def b4 : Bar := mkBar 4 103 99 100 1000

/-- Initial driver state of the small configuration. -/
def st0 : DState := initState cexCfg

/-- Driver state after loop index 0. -/
def st1 : DState :=
  { current_capital := 500, positions := [], trades_history := [], equity_curve := [500, 500]
    drawdowns := [0], tick := 0, rm := rmX }

/-- Driver state after loop index 1. -/
def st2 : DState :=
  { current_capital := 500, positions := [], trades_history := []
    equity_curve := [500, 500, 500], drawdowns := [0, 0], tick := 0, rm := rmX }

/-- The BUY position opened at loop index 2 (entry at the next bar's close
100; because `'BUY' ≠ 'LONG'` its stop 102 sits above the entry and its
target 97 below). -/
def pos3 (clk : ℕ → ℕ) : Position :=
  { type := .BUY, entry_price := 100, size := 5/16, stop_loss := 102, take_profit := 97
    entry_time := 3, entry_capital := 500, metadata := an3 (clk 1) }

/-- Driver state after loop index 2. -/
def st3 (clk : ℕ → ℕ) : DState :=
  { current_capital := 500, positions := [pos3 clk], trades_history := []
    equity_curve := [500, 500, 500, 500], drawdowns := [0, 0, 0], tick := 2, rm := rmX }

/-- The trade closed at loop index 3 (stop hit at 102, PnL −5/8, exit time
from the ambient clock). -/
def trade4 (clk : ℕ → ℕ) : TradeRecord :=
  { type := .BUY, entry_price := 100, exit_price := 102, size := 5/16, pnl := -5/8
    return_pct := -1/8, entry_time := 3, exit_time := clk 2, exit_reason := .stopLossHit
    metadata := an3 (clk 1) }

/-- The SELL position opened at loop index 3. -/
def pos4 (clk : ℕ → ℕ) : Position :=
  { type := .SELL, entry_price := 100, size := 799/2560, stop_loss := 102, take_profit := 97
    entry_time := 4, entry_capital := 3995/8, metadata := an4 (clk 4) }

/-- Final driver state of the small run. -/
def st4 (clk : ℕ → ℕ) : DState :=
  { current_capital := 3995/8, positions := [pos4 clk], trades_history := [trade4 clk]
    equity_curve := [500, 500, 500, 500, 3995/8], drawdowns := [0, 0, 0, 1/800], tick := 5, rm := rmX }

/-- A losing trade record (PnL −2), as in the spec's metrics example. -/
def losingTrade : TradeRecord :=
  { type := .LONG, entry_price := 100, exit_price := 98, size := 1, pnl := -2
    return_pct := -2/5, entry_time := 0, exit_time := 0, exit_reason := .stopLossHit
    metadata := neutralAnalysis .insufficientData }

/-- A second, smaller losing trade record (PnL −1). -/
def losingTrade2 : TradeRecord :=
  { type := .SHORT, entry_price := 100, exit_price := 101, size := 1, pnl := -1
    return_pct := -1/5, entry_time := 1, exit_time := 1, exit_reason := .stopLossHit
    metadata := neutralAnalysis .insufficientData }

end ConcreteInputs

/-- Claim C3: for every account balance, `calculate_position_size` returns 0
whenever `entry_price = stop_loss`, and otherwise returns
`min(risk_amount / price_risk * kelly_fraction, max_position_size)` with
`risk_amount = balance * position_sizing_pct/100` and
`price_risk = |entry_price - stop_loss|`. -/
theorem position_size_spec (rm : RMState) (balance entry stop : ℚ) :
    (entry = stop → calculate_position_size rm balance entry stop = 0) ∧
    (entry ≠ stop →
      calculate_position_size rm balance entry stop =
        min (balance * rm.position_sizing / 100 / |entry - stop| * kelly_fraction)
          rm.max_position_size) := by
  constructor
  · intro h
    subst h
    simp [calculate_position_size]
  · intro h
    have hne : |entry - stop| ≠ 0 := by
      simpa [abs_eq_zero, sub_eq_zero] using h
    simp [calculate_position_size, hne]

/-- Witness for C3 at the inputs of `tests/test_risk_manager.py`: a degenerate
stop yields size 0, and a 1000-wide stop at balance 1000 yields
`min(10/1000 * kelly, 1000) = 1/800`. -/
theorem position_size_spec_witness :
    calculate_position_size (initRM defaultConfig) 1000 50000 50000 = 0 ∧
    calculate_position_size (initRM defaultConfig) 1000 50000 49000 =
      min ((1000 : ℚ) * (initRM defaultConfig).position_sizing / 100 / |(50000 : ℚ) - 49000|
        * kelly_fraction) (initRM defaultConfig).max_position_size :=
  ⟨(position_size_spec (initRM defaultConfig) 1000 50000 50000).1 rfl,
   (position_size_spec (initRM defaultConfig) 1000 50000 49000).2 (by norm_num)⟩

theorem trend3_eval : analyze_trend cexCfg [100, 100, 101] = .ok trend3 := by
  norm_num [analyze_trend, calculate_sma, convUniform, cexCfg, defaultConfig, List.range_succ,
    trend3]

theorem mom3_eval : calculate_momentum 2 [100, 100, 101] = .ok mom3 := by
  norm_num [calculate_momentum, calculate_rsi, convUniform, diffs, gainsOf, lossesOf,
    padEdgeFront, List.range_succ, mom3]

theorem vol3_eval : calculate_volatility idOps [100, 100, 101] = vol3 := by
  norm_num [calculate_volatility, stdQ, mean, diffs, tailSlice, listMax, listMin, idOps, vol3]

theorem volu3_eval : analyze_volume frame3 = .ok (.info 1 .NORMAL) := by
  norm_num [analyze_volume, frame3, rows3, mkBar, mean, tailSlice]

theorem pre3_eval : analyzePre cexCfg idOps frame3 = .ok (trend3, mom3, vol3, .info 1 .NORMAL) := by
  have h1 : (frame3.rows.map Bar.close) = [100, 100, 101] := by
    norm_num [frame3, rows3, mkBar]
  rw [analyzePre, h1, show cexCfg.rsi_period = 2 from rfl, trend3_eval, mom3_eval, vol3_eval,
    volu3_eval]

theorem body3_eval (t : ℕ) : analyze_body cexCfg (initRM cexCfg) idOps t frame3 = .ok (an3 t) := by
  rw [analyze_body, pre3_eval]
  have habs : |(101 : ℚ)/20| = 101/20 := abs_of_nonneg (by norm_num)
  norm_num [generate_signal, signalCore, trend3, mom3, ratioOf, frame3, rows3, mkBar,
    validate_trade, calculate_position_size, kelly_fraction, initRM, cexCfg, defaultConfig,
    an3, vol3, habs, min_def]

theorem an3_eval (t : ℕ) : analyze_market cexCfg (initRM cexCfg) idOps t frame3 = an3 t := by
  simp only [analyze_market, body3_eval]
  norm_num [frame3, rows3, cexCfg, defaultConfig, mkBar]

theorem ticks3_eval : analyzeTicks cexCfg idOps frame3 = 2 := by
  simp only [analyzeTicks, pre3_eval]
  norm_num [frame3, rows3, cexCfg, defaultConfig, mkBar]

theorem trend4_eval : analyze_trend cexCfg [100, 100, 101, 100] = .ok trend4 := by
  norm_num [analyze_trend, calculate_sma, convUniform, cexCfg, defaultConfig, List.range_succ,
    trend4]

theorem mom4_eval : calculate_momentum 2 [100, 100, 101, 100] = .ok mom4 := by
  norm_num [calculate_momentum, calculate_rsi, convUniform, diffs, gainsOf, lossesOf,
    padEdgeFront, List.range_succ, mom4]

theorem vol4_eval : calculate_volatility idOps [100, 100, 101, 100] = vol4 := by
  norm_num [calculate_volatility, stdQ, mean, diffs, tailSlice, listMax, listMin, idOps, vol4]

theorem volu4_eval : analyze_volume frame4 = .ok (.info 1 .NORMAL) := by
  norm_num [analyze_volume, frame4, rows4, rows3, mkBar, mean, tailSlice]

theorem pre4_eval : analyzePre cexCfg idOps frame4 = .ok (trend4, mom4, vol4, .info 1 .NORMAL) := by
  have h1 : (frame4.rows.map Bar.close) = [100, 100, 101, 100] := by
    norm_num [frame4, rows4, rows3, mkBar]
  rw [analyzePre, h1, show cexCfg.rsi_period = 2 from rfl, trend4_eval, mom4_eval, vol4_eval,
    volu4_eval]

theorem body4_eval (t : ℕ) : analyze_body cexCfg (initRM cexCfg) idOps t frame4 = .ok (an4 t) := by
  rw [analyze_body, pre4_eval]
  have habs : |(5 : ℚ)| = 5 := abs_of_nonneg (by norm_num)
  have hd1 : (TrendDir.WEAK_DOWNTREND = TrendDir.STRONG_UPTREND ∨
      TrendDir.WEAK_DOWNTREND = TrendDir.WEAK_UPTREND) = False := by simp
  norm_num [generate_signal, signalCore, trend4, mom4, ratioOf, frame4, rows4, rows3, mkBar,
    validate_trade, calculate_position_size, kelly_fraction, initRM, cexCfg, defaultConfig,
    an4, vol4, habs, hd1, min_def]

theorem an4_eval (t : ℕ) : analyze_market cexCfg (initRM cexCfg) idOps t frame4 = an4 t := by
  simp only [analyze_market, body4_eval]
  norm_num [frame4, rows4, rows3, cexCfg, defaultConfig, mkBar]

theorem ticks4_eval : analyzeTicks cexCfg idOps frame4 = 2 := by
  simp only [analyzeTicks, pre4_eval]
  norm_num [frame4, rows4, rows3, cexCfg, defaultConfig, mkBar]

theorem step1_eval (clk : ℕ → ℕ) :
    barStep cexCfg rmX idOps clk true true [b0] b1 st0 = .ok st1 := by
  simp only [barStep, process_open_positions, st0, initState, processGo]
  norm_num [analyze_market, analyzeTicks, cexCfg, defaultConfig, should_execute_trade,
    neutralAnalysis, update_metrics, listMax, st1, rmX, initRM]

theorem step2_eval (clk : ℕ → ℕ) :
    barStep cexCfg rmX idOps clk true true [b0, b1] b2 st1 = .ok st2 := by
  simp only [barStep, process_open_positions, st1, processGo]
  norm_num [analyze_market, analyzeTicks, cexCfg, defaultConfig, should_execute_trade,
    neutralAnalysis, update_metrics, listMax, st2, rmX, initRM]

theorem step3_eval (clk : ℕ → ℕ) :
    barStep cexCfg rmX idOps clk true true [b0, b1, b2] b3 st2 = .ok (st3 clk) := by
  have hfr : ({ hasClose := true, hasVolume := true, rows := [b0, b1, b2] } : Frame) = frame3 := by
    norm_num [frame3, rows3, b0, b1, b2]
  simp only [barStep, process_open_positions, st2, processGo, rmX, hfr, an3_eval, ticks3_eval]
  have habs : |(-2 : ℚ)| = 2 := by rw [abs_of_nonpos] <;> norm_num
  have hsig : (Sig.BUY = Sig.LONG) = False := by simp
  norm_num [should_execute_trade, an3, execute_trade, calculate_stop_loss, calculate_take_profit,
    calculate_position_size, kelly_fraction, rmX, initRM, cexCfg, defaultConfig, b3, mkBar,
    update_metrics, listMax, st3, pos3, habs, hsig, min_def]

theorem step4_eval (clk : ℕ → ℕ) :
    barStep cexCfg rmX idOps clk true true [b0, b1, b2, b3] b4 (st3 clk) = .ok (st4 clk) := by
  have hfr : ({ hasClose := true, hasVolume := true, rows := [b0, b1, b2, b3] } : Frame)
      = frame4 := by
    norm_num [frame4, rows4, rows3, b0, b1, b2, b3]
  have hhit : hit_stop_loss (pos3 clk) b4 = true := by
    norm_num [hit_stop_loss, pos3, b4, mkBar]
  have habs : |(-2 : ℚ)| = 2 := by rw [abs_of_nonpos] <;> norm_num
  simp only [barStep, process_open_positions, st3, processGo, rmX, hhit, if_true, hfr,
    an4_eval, ticks4_eval]
  have hsig : (Sig.BUY = Sig.LONG) = False := by simp
  have hsig2 : (Sig.SELL = Sig.LONG) = False := by simp
  norm_num [close_position, close_canon, pos3, processGo,
    should_execute_trade, an4, execute_trade, calculate_stop_loss, calculate_take_profit,
    calculate_position_size, kelly_fraction, rmX, initRM, cexCfg, defaultConfig, b4, mkBar,
    update_metrics, listMax, st4, pos4, trade4, habs, hsig, hsig2, min_def, List.eraseP]

theorem runLoop_cons (cfg : Config) (rmA : RMState) (ops : FloatOps) (clk : ℕ → ℕ)
    (hc hv : Bool) (seen : List Bar) (next : Bar) (rest : List Bar) (s s1 : DState)
    (h : barStep cfg rmA ops clk hc hv seen next s = .ok s1) :
    runLoop cfg rmA ops clk hc hv seen (next :: rest) s
      = runLoop cfg rmA ops clk hc hv (seen ++ [next]) rest s1 := by
  simp only [runLoop, h]

theorem runLoop_nil (cfg : Config) (rmA : RMState) (ops : FloatOps) (clk : ℕ → ℕ)
    (hc hv : Bool) (seen : List Bar) (s : DState) :
    runLoop cfg rmA ops clk hc hv seen [] s = .ok s := rfl

theorem loop_eval (clk : ℕ → ℕ) :
    runLoop cexCfg rmX idOps clk true true [b0] [b1, b2, b3, b4] st0 = .ok (st4 clk) := by
  rw [runLoop_cons _ _ _ _ _ _ _ _ _ _ _ (step1_eval clk)]
  simp only [List.cons_append, List.nil_append]
  rw [runLoop_cons _ _ _ _ _ _ _ _ _ _ _ (step2_eval clk)]
  simp only [List.cons_append, List.nil_append]
  rw [runLoop_cons _ _ _ _ _ _ _ _ _ _ _ (step3_eval clk)]
  simp only [List.cons_append, List.nil_append]
  rw [runLoop_cons _ _ _ _ _ _ _ _ _ _ _ (step4_eval clk)]
  exact runLoop_nil _ _ _ _ _ _ _ _

theorem run_eval (clk : ℕ → ℕ) :
    (run_backtest cexCfg idOps clk cexFrame).map (fun r => r.trades.map TradeRecord.exit_time)
      = .ok [clk 2] := by
  have hbody : run_body cexCfg idOps clk cexFrame
      = generate_backtest_report cexCfg idOps (st4 clk) := by
    rw [run_body]
    have hrows : cexFrame.rows = b0 :: [b1, b2, b3, b4] := rfl
    simp only [hrows, show cexFrame.hasClose = true from rfl,
      show cexFrame.hasVolume = true from rfl, show initState cexCfg = st0 from rfl,
      show initRM cexCfg = rmX from rfl, loop_eval]
  rw [run_backtest, hbody, generate_backtest_report]
  rw [if_neg (show ¬ (cexCfg.initial_capital = 0) by norm_num [cexCfg, defaultConfig])]
  simp only [Except.map]
  norm_num [st4, trade4]

/-- Claim C6, counterexample: running the full backtest twice on the same
five-bar series and configuration but at different wall-clock times yields
different reports (they differ in the closed trade's `exit_time`), so the
report is not a function of the series and configuration alone. -/
theorem run_report_depends_on_clock :
    run_backtest cexCfg idOps (clkConst 0) cexFrame
      ≠ run_backtest cexCfg idOps (clkConst 1) cexFrame := by
  intro h
  have h1 := run_eval (clkConst 0)
  have h2 := run_eval (clkConst 1)
  rw [h] at h1
  rw [h2] at h1
  simp [clkConst] at h1

/-- Claim C1 (the code at the failing input): a position created from an
approved BUY signal at entry 100 (default 2%/3% stop/profit percentages)
stores `stop_loss = 102` and `take_profit = 97`, because
`_calculate_stop_loss`/`_calculate_take_profit` compare the signal string to
`'LONG'` while the driver's signals are `'BUY'`/`'SELL'`; thus
`take_profit < entry_price < stop_loss`, the inverse of the claimed
`stop_loss < entry_price < take_profit` (the size is positive as claimed). -/
theorem buy_position_levels_inverted :
    (execute_trade defaultConfig buyAnalysis (mkBar 1 102 98 100 1000)
        (initState defaultConfig)).positions.map
        (fun p => (p.type, p.entry_price, p.stop_loss, p.take_profit, p.size))
      = [(Sig.BUY, 100, 102, 97, 5/16)] ∧
    calculate_stop_loss defaultConfig .BUY 100 = 102 ∧
    calculate_stop_loss defaultConfig .LONG 100 = 98 ∧
    calculate_take_profit defaultConfig .BUY 100 = 97 ∧
    calculate_take_profit defaultConfig .LONG 100 = 103 ∧
    ¬ ((102 : ℚ) < 100 ∧ (100 : ℚ) < 97) := by
  have hsig : (Sig.BUY = Sig.LONG) = False := by simp
  have habs : |(-2 : ℚ)| = 2 := by rw [abs_of_nonpos] <;> norm_num
  norm_num [execute_trade, calculate_stop_loss, calculate_take_profit, calculate_position_size,
    kelly_fraction, initState, initRM, defaultConfig, buyAnalysis, mkBar, hsig, habs, min_def]

/-- Claim C2 (the code at the failing input): closing a LONG position
(entry 100, size 1) at exit 102 updates the driver's capital from 500 to
502 and records PnL 2, but leaves the risk manager's state exactly equal to
its initial instance with balance 500 — `record_trade_result` is invoked
zero times, not once, so the two copies do not reflect the same realized
PnL (one call would have moved the mirrored balance to 502). -/
theorem close_position_skips_risk_update :
    (close_position (clkConst 0) longPos 102 .takeProfitHit (initState defaultConfig)).map
        (fun s => (s.current_capital, s.rm, s.trades_history.map TradeRecord.pnl))
      = .ok (502, initRM defaultConfig, [2]) ∧
    (initRM defaultConfig).current_balance = 500 ∧
    (record_trade_result (initRM defaultConfig) 2).current_balance = 502 ∧
    (500 : ℚ) ≠ 502 := by
  norm_num [close_position, close_canon, clkConst, longPos, initState, initRM, defaultConfig,
    record_trade_result, Except.map, List.eraseP]

/-- Claim C5: the exit decision is taken against the given bar's high/low —
a `'LONG'` position hits its stop iff `bar.low ≤ stop_loss` and its target
iff `take_profit ≤ bar.high`, with `'SHORT'` inverted — and in
`_process_open_positions` the stop-loss check precedes the take-profit
check, so whenever the stop condition holds the position is closed at the
stop level with exit reason `'Stop Loss'`. -/
theorem exit_check_semantics (p : Position) (bar : Bar) (clk : ℕ → ℕ) (rest : List Position)
    (s : DState) :
    (p.type = .LONG →
      ((hit_stop_loss p bar = true ↔ bar.low ≤ p.stop_loss) ∧
       (hit_take_profit p bar = true ↔ p.take_profit ≤ bar.high))) ∧
    (p.type = .SHORT →
      ((hit_stop_loss p bar = true ↔ p.stop_loss ≤ bar.high) ∧
       (hit_take_profit p bar = true ↔ bar.low ≤ p.take_profit))) ∧
    (hit_stop_loss p bar = true →
      processGo clk bar (p :: rest) s =
        (match close_position clk p p.stop_loss .stopLossHit s with
         | .error e => .error e
         | .ok s1 => processGo clk bar rest s1)) := by
  refine ⟨fun h => ?_, fun h => ?_, fun h => ?_⟩
  · simp [hit_stop_loss, hit_take_profit, h]
  · have hne : (Sig.SHORT = Sig.LONG) = False := by simp
    simp [hit_stop_loss, hit_take_profit, h, hne]
  · simp only [processGo, h, if_true]

/-- Witness for C5 at a LONG position whose next bar pierces both the stop
(98) and the target (103): the stop check fires and the position is closed
through the stop-loss branch. -/
theorem exit_check_semantics_witness :
    longPos.type = Sig.LONG ∧
    (hit_stop_loss longPos bothHitBar = true ↔ bothHitBar.low ≤ longPos.stop_loss) ∧
    hit_stop_loss longPos bothHitBar = true ∧ hit_take_profit longPos bothHitBar = true ∧
    processGo (clkConst 0) bothHitBar (longPos :: []) (initState defaultConfig) =
      (match close_position (clkConst 0) longPos longPos.stop_loss .stopLossHit
          (initState defaultConfig) with
       | .error e => .error e
       | .ok s1 => processGo (clkConst 0) bothHitBar [] s1) := by
  have h := exit_check_semantics longPos bothHitBar (clkConst 0) [] (initState defaultConfig)
  have hs : hit_stop_loss longPos bothHitBar = true := by
    norm_num [hit_stop_loss, longPos, bothHitBar, mkBar]
  have ht : hit_take_profit longPos bothHitBar = true := by
    norm_num [hit_take_profit, longPos, bothHitBar, mkBar]
  exact ⟨rfl, ((h.1 rfl).1), hs, ht, h.2.2 hs⟩

/-- Claim C9: when a position exits, the processing step closes it exactly
at the stored `stop_loss` (stop branch) or `take_profit` (target branch)
level — the appended trade record's `exit_price` is that stored level — and
the entire close result is independent of the triggering bar, so the
realized PnL does not depend on how far the bar's range overshoots the
level. -/
theorem exit_price_is_stored_level (clk : ℕ → ℕ) (p : Position) (s : DState) :
    (∀ bar, hit_stop_loss p bar = true →
      processGo clk bar [p] s = close_position clk p p.stop_loss .stopLossHit s) ∧
    (∀ bar, hit_stop_loss p bar = false → hit_take_profit p bar = true →
      processGo clk bar [p] s = close_position clk p p.take_profit .takeProfitHit s) ∧
    (∀ bar s1, hit_stop_loss p bar = true → processGo clk bar [p] s = .ok s1 →
      s1.trades_history.map TradeRecord.exit_price
        = s.trades_history.map TradeRecord.exit_price ++ [p.stop_loss]) ∧
    (∀ b1 b2, hit_stop_loss p b1 = true → hit_stop_loss p b2 = true →
      processGo clk b1 [p] s = processGo clk b2 [p] s) ∧
    (∀ b1 b2, hit_stop_loss p b1 = false → hit_take_profit p b1 = true →
      hit_stop_loss p b2 = false → hit_take_profit p b2 = true →
      processGo clk b1 [p] s = processGo clk b2 [p] s) := by
  have hstop : ∀ bar, hit_stop_loss p bar = true →
      processGo clk bar [p] s = close_position clk p p.stop_loss .stopLossHit s := by
    intro bar h
    simp only [processGo, h, if_true]
    cases hcp : close_position clk p p.stop_loss .stopLossHit s with
    | error e => rfl
    | ok s1 => rfl
  have htp : ∀ bar, hit_stop_loss p bar = false → hit_take_profit p bar = true →
      processGo clk bar [p] s = close_position clk p p.take_profit .takeProfitHit s := by
    intro bar h1 h2
    simp only [processGo, h1, h2, if_true, Bool.false_eq_true, if_false]
    cases hcp : close_position clk p p.take_profit .takeProfitHit s with
    | error e => rfl
    | ok s1 => rfl
  refine ⟨hstop, htp, fun bar s1 h hok => ?_, fun b1 b2 h1 h2 => ?_,
    fun b1 b2 h1 h2 h3 h4 => ?_⟩
  · rw [hstop bar h] at hok
    rw [close_position] at hok
    cases hcc : close_canon clk p p.stop_loss .stopLossHit s with
    | error e => rw [hcc] at hok; exact absurd hok (by simp)
    | ok s2 =>
      rw [hcc] at hok
      rw [close_canon] at hcc
      by_cases hc : p.entry_capital = 0
      · rw [if_pos hc] at hcc; exact absurd hcc (by simp)
      · rw [if_neg hc] at hcc
        have hs2 := (Except.ok.injEq _ _).mp hcc
        have hs1 := (Except.ok.injEq _ _).mp hok
        subst hs1
        rw [← hs2]
        simp
  · rw [hstop b1 h1, hstop b2 h2]
  · rw [htp b1 h1 h2, htp b2 h3 h4]

/-- Witness for C9: a bar that overshoots the stop to 50 and a bar that
touches it at exactly 98 close the same LONG position with identical
results, both equal to closing at the stored stop level. -/
theorem exit_price_is_stored_level_witness :
    hit_stop_loss longPos deepStopBar = true ∧ hit_stop_loss longPos touchStopBar = true ∧
    deepStopBar.low ≠ touchStopBar.low ∧
    processGo (clkConst 0) deepStopBar [longPos] (initState defaultConfig)
      = processGo (clkConst 0) touchStopBar [longPos] (initState defaultConfig) ∧
    processGo (clkConst 0) deepStopBar [longPos] (initState defaultConfig)
      = close_position (clkConst 0) longPos longPos.stop_loss .stopLossHit
          (initState defaultConfig) := by
  have h := exit_price_is_stored_level (clkConst 0) longPos (initState defaultConfig)
  have h1 : hit_stop_loss longPos deepStopBar = true := by
    norm_num [hit_stop_loss, longPos, deepStopBar, mkBar]
  have h2 : hit_stop_loss longPos touchStopBar = true := by
    norm_num [hit_stop_loss, longPos, touchStopBar, mkBar]
  refine ⟨h1, h2, by norm_num [deepStopBar, touchStopBar, mkBar], h.2.2.2.1 _ _ h1 h2, h.1 _ h1⟩

theorem foldl_max_neg (xs : List ℚ) : ∀ acc : ℚ, acc < 0 → (∀ x ∈ xs, x < 0) →
    xs.foldl max acc < 0 := by
  induction xs with
  | nil => intro acc h _; simpa using h
  | cons y ys ih =>
    intro acc h hall
    simp only [List.foldl_cons]
    exact ih _ (max_lt h (hall y (by simp))) (fun x hx => hall x (by simp [hx]))

theorem listMax_neg (xs : List ℚ) (h : xs ≠ []) (hall : ∀ x ∈ xs, x < 0) : listMax xs < 0 := by
  cases xs with
  | nil => exact absurd rfl h
  | cons y ys =>
    simp only [listMax]
    exact foldl_max_neg ys y (hall y (by simp)) (fun x hx => hall x (by simp [hx]))

theorem foldl_min_pos (xs : List ℚ) : ∀ acc : ℚ, 0 < acc → (∀ x ∈ xs, 0 < x) →
    0 < xs.foldl min acc := by
  induction xs with
  | nil => intro acc h _; simpa using h
  | cons y ys ih =>
    intro acc h hall
    simp only [List.foldl_cons]
    exact ih _ (lt_min h (hall y (by simp))) (fun x hx => hall x (by simp [hx]))

theorem listMin_pos (xs : List ℚ) (h : xs ≠ []) (hall : ∀ x ∈ xs, 0 < x) : 0 < listMin xs := by
  cases xs with
  | nil => exact absurd rfl h
  | cons y ys =>
    simp only [listMin]
    exact foldl_min_pos ys y (hall y (by simp)) (fun x hx => hall x (by simp [hx]))

/-- Claim C10: on a non-empty trade history, `largest_win` is the maximum
PnL over all trades and `largest_loss` the minimum over all trades (not
over winning/losing trades only); consequently, if every trade has negative
PnL the largest win is negative, and if every trade has positive PnL the
largest loss is positive. -/
theorem largest_win_loss_over_all_trades (trades : List TradeRecord) (h : trades ≠ []) :
    (trade_metrics_of trades).largest_win = listMax (trades.map TradeRecord.pnl) ∧
    (trade_metrics_of trades).largest_loss = listMin (trades.map TradeRecord.pnl) ∧
    ((∀ t ∈ trades, t.pnl < 0) → (trade_metrics_of trades).largest_win < 0) ∧
    ((∀ t ∈ trades, 0 < t.pnl) → 0 < (trade_metrics_of trades).largest_loss) := by
  have hne : trades.isEmpty = false := by
    cases trades with
    | nil => exact absurd rfl h
    | cons t ts => rfl
  have hw : (trade_metrics_of trades).largest_win = listMax (trades.map TradeRecord.pnl) := by
    simp [trade_metrics_of, calculate_trade_metrics, hne]
  have hl : (trade_metrics_of trades).largest_loss = listMin (trades.map TradeRecord.pnl) := by
    simp [trade_metrics_of, calculate_trade_metrics, hne]
  have hmapne : trades.map TradeRecord.pnl ≠ [] := by
    cases trades with
    | nil => exact absurd rfl h
    | cons t ts => simp
  refine ⟨hw, hl, fun hall => ?_, fun hall => ?_⟩
  · rw [hw]
    refine listMax_neg _ hmapne (fun x hx => ?_)
    obtain ⟨t, ht, rfl⟩ := List.mem_map.mp hx
    exact hall t ht
  · rw [hl]
    refine listMin_pos _ hmapne (fun x hx => ?_)
    obtain ⟨t, ht, rfl⟩ := List.mem_map.mp hx
    exact hall t ht

/-- Witness for C10 on a history of two losing trades (−2 and −1): the
largest win is the maximum over all trades, −1, a negative number. -/
theorem largest_win_loss_witness :
    ([losingTrade, losingTrade2] : List TradeRecord) ≠ [] ∧
    (trade_metrics_of [losingTrade, losingTrade2]).largest_win
      = listMax ([losingTrade, losingTrade2].map TradeRecord.pnl) ∧
    (trade_metrics_of [losingTrade, losingTrade2]).largest_win < 0 ∧
    (trade_metrics_of [losingTrade, losingTrade2]).largest_win = -1 := by
  have h := largest_win_loss_over_all_trades [losingTrade, losingTrade2] (by simp)
  have hall : ∀ t ∈ ([losingTrade, losingTrade2] : List TradeRecord), t.pnl < 0 := by
    intro t ht
    simp only [List.mem_cons, List.mem_singleton, List.not_mem_nil, or_false] at ht
    rcases ht with rfl | rfl <;> norm_num [losingTrade, losingTrade2]
  refine ⟨by simp, h.1, h.2.2.1 hall, ?_⟩
  norm_num [trade_metrics_of, calculate_trade_metrics, losingTrade, losingTrade2,
    listMax, max_def]

/-- Claim C7: on an empty or single-row series (with non-zero configured
initial capital), the full simulation returns a report — no exception —
with `total_trades = 0` and `final_capital` equal to the initial capital. -/
theorem empty_series_report (cfg : Config) (ops : FloatOps) (clk : ℕ → ℕ) (f : Frame)
    (hlen : f.rows.length ≤ 1) (hcap : cfg.initial_capital ≠ 0) :
    (run_backtest cfg ops clk f).map
        (fun r => (r.overview.total_trades, r.overview.final_capital))
      = .ok (0, cfg.initial_capital) := by
  have hloop : (match f.rows with
      | [] => Except.ok (initState cfg)
      | b :: rest =>
        runLoop cfg (initRM cfg) ops clk f.hasClose f.hasVolume [b] rest (initState cfg))
      = .ok (initState cfg) := by
    cases hr : f.rows with
    | nil => rfl
    | cons b rest =>
      cases rest with
      | nil => exact runLoop_nil _ _ _ _ _ _ _ _
      | cons b2 r2 => rw [hr] at hlen; simp at hlen
  rw [run_backtest, run_body]
  simp only [hloop]
  rw [generate_backtest_report, if_neg hcap]
  simp [initState, Except.map]

/-- Witness for C7 on the empty series under the default configuration. -/
theorem empty_series_report_witness :
    emptyFrame.rows.length ≤ 1 ∧ defaultConfig.initial_capital ≠ 0 ∧
    (run_backtest defaultConfig idOps (clkConst 0) emptyFrame).map
        (fun r => (r.overview.total_trades, r.overview.final_capital))
      = .ok (0, defaultConfig.initial_capital) := by
  refine ⟨by norm_num [emptyFrame], by norm_num [defaultConfig], ?_⟩
  exact empty_series_report defaultConfig idOps (clkConst 0) emptyFrame
    (by norm_num [emptyFrame]) (by norm_num [defaultConfig])

/-- Claim C8: an unexpected exception inside a full backtest run is
re-raised unchanged by `run_backtest`'s handler, while an unexpected
exception inside a full market analysis (one that passed the column and
warmup guards) is caught by `analyze_market` and converted into an
`ERROR`-kind analysis with confidence 0 carrying the exception in its
reason, never propagated. -/
theorem unexpected_error_handling (cfg : Config) (rmA : RMState) (ops : FloatOps)
    (clk : ℕ → ℕ) (t : ℕ) (f : Frame) (e : PyExc) :
    (run_body cfg ops clk f = .error e → run_backtest cfg ops clk f = .error e) ∧
    (f.hasClose = true → f.hasVolume = true → cfg.min_data_points ≤ f.rows.length →
      analyze_body cfg rmA ops t f = .error e →
      analyze_market cfg rmA ops t f = errorAnalysis (.analysisError e)) := by
  constructor
  · intro h
    rw [run_backtest, h]
  · intro h1 h2 h3 h4
    rw [analyze_market, h1, h2]
    simp only [Bool.true_eq_false, if_false]
    rw [if_neg (Nat.not_lt.mpr h3), h4]

theorem run_body_zero_capital_eval :
    run_body zeroCapCfg idOps (clkConst 0) twoBarFrame = .error .zeroDivisionError := by
  rw [run_body]
  have hrows : twoBarFrame.rows = mkBar 0 100 100 100 1000 :: [mkBar 1 100 100 100 1000] := rfl
  simp only [hrows, show twoBarFrame.hasClose = true from rfl,
    show twoBarFrame.hasVolume = true from rfl]
  norm_num [runLoop, barStep, process_open_positions, processGo, analyze_market, analyzeTicks,
    should_execute_trade, neutralAnalysis, update_metrics, listMax, initState, initRM,
    zeroCapCfg, defaultConfig, mkBar]

theorem analyze_body_empty_eval :
    analyze_body noMinCfg (initRM noMinCfg) idOps 0 emptyFrame = .error .indexError := by
  norm_num [analyze_body, analyzePre, analyze_trend, calculate_sma, calculate_momentum,
    calculate_rsi, noMinCfg, defaultConfig, emptyFrame]

/-- Witness for C8: with zero initial capital the drawdown update raises
`ZeroDivisionError`, which `run_backtest` re-raises; with a zero warmup
threshold an empty series drives `rsi[-1]` into `IndexError`, which
`analyze_market` converts into an `ERROR` analysis. -/
theorem unexpected_error_handling_witness :
    run_body zeroCapCfg idOps (clkConst 0) twoBarFrame = .error .zeroDivisionError ∧
    run_backtest zeroCapCfg idOps (clkConst 0) twoBarFrame = .error .zeroDivisionError ∧
    analyze_body noMinCfg (initRM noMinCfg) idOps 0 emptyFrame = .error .indexError ∧
    analyze_market noMinCfg (initRM noMinCfg) idOps 0 emptyFrame
      = errorAnalysis (.analysisError .indexError) := by
  refine ⟨run_body_zero_capital_eval, ?_, analyze_body_empty_eval, ?_⟩
  · exact (unexpected_error_handling zeroCapCfg (initRM zeroCapCfg) idOps (clkConst 0) 0
      twoBarFrame .zeroDivisionError).1 run_body_zero_capital_eval
  · exact (unexpected_error_handling noMinCfg (initRM noMinCfg) idOps (clkConst 0) 0
      emptyFrame .indexError).2 rfl rfl (by norm_num [noMinCfg, defaultConfig, emptyFrame])
      analyze_body_empty_eval

theorem diffs_length (xs : List ℚ) : (diffs xs).length = xs.length - 1 := by
  induction xs with
  | nil => rfl
  | cons x rest ih =>
    cases rest with
    | nil => rfl
    | cons y t =>
      simp only [diffs, List.length_cons]
      rw [show ((y :: t) : List ℚ).length = t.length + 1 from rfl] at ih
      simp [ih]

theorem tailSlice_length (n : ℕ) (xs : List ℚ) (h1 : n ≠ 0) (h2 : n ≤ xs.length) :
    (tailSlice n xs).length = n := by
  rw [tailSlice, if_neg h1, List.length_drop, Nat.sub_sub_self h2]

theorem mem_tailSlice (n : ℕ) (xs : List ℚ) (x : ℚ) (h : x ∈ tailSlice n xs) : x ∈ xs := by
  rw [tailSlice] at h
  split at h
  · exact h
  · exact List.drop_subset _ _ h

theorem gainsOf_nonneg (ds : List ℚ) (x : ℚ) (h : x ∈ gainsOf ds) : 0 ≤ x := by
  obtain ⟨d, _, rfl⟩ := List.mem_map.mp h
  by_cases hd : 0 < d
  · simp [hd]
    linarith
  · simp [hd]

theorem lossesOf_nonneg (ds : List ℚ) (x : ℚ) (h : x ∈ lossesOf ds) : 0 ≤ x := by
  obtain ⟨d, _, rfl⟩ := List.mem_map.mp h
  by_cases hd : d < 0
  · simp [hd]
    linarith
  · simp [hd]

theorem mean_nonneg (xs : List ℚ) (h : ∀ x ∈ xs, 0 ≤ x) : 0 ≤ mean xs := by
  rw [mean]
  exact div_nonneg (List.sum_nonneg h) (by positivity)

theorem rsi_formula_bounds (r : ℚ) (h : 0 ≤ r) :
    0 ≤ 100 - 100 / (1 + r) ∧ 100 - 100 / (1 + r) ≤ 100 := by
  have h1 : (0 : ℚ) < 1 + r := by linarith
  have h2 : (0 : ℚ) < 100 / (1 + r) := by positivity
  have h3 : 100 / (1 + r) ≤ 100 := by
    rw [div_le_iff₀ h1]
    nlinarith
  exact ⟨by linarith, by linarith⟩

theorem range_map_getLast (k : ℕ) (f : ℕ → Option ℚ) :
    ((List.range (k + 1)).map f).getLast? = some (f k) := by
  rw [List.range_succ, List.map_append]
  simp

theorem range_map_getLastQ (k : ℕ) (f : ℕ → ℚ) :
    ((List.range (k + 1)).map f).getLast? = some (f k) := by
  rw [List.range_succ, List.map_append]
  simp

theorem take_drop_tailSlice (n : ℕ) (xs : List ℚ) (h1 : n ≠ 0) (h2 : n ≤ xs.length) :
    ((xs.drop (xs.length - n)).take n) = tailSlice n xs := by
  rw [tailSlice, if_neg h1]
  apply List.take_of_length_le
  rw [List.length_drop, Nat.sub_sub_self h2]

theorem convUniform_getLast (xs : List ℚ) (n : ℕ) (h0 : n ≠ 0) (h : n ≤ xs.length) :
    (convUniform xs n).getLast? = some ((tailSlice n xs).sum / n) := by
  rw [convUniform, if_pos h]
  have hk : xs.length - n + 1 = (xs.length - n) + 1 := rfl
  rw [hk, range_map_getLastQ]
  rw [take_drop_tailSlice n xs h0 h]

theorem zipWith_map_pair (l : List ℕ) (f : ℚ → ℚ → Option ℚ) (g h : ℕ → ℚ) :
    List.zipWith f (l.map g) (l.map h) = l.map (fun i => f (g i) (h i)) := by
  induction l with
  | nil => rfl
  | cons a t ih => simp [ih]

theorem getLast_append_right (l1 l2 : List (Option ℚ)) (h : l2 ≠ []) :
    (l1 ++ l2).getLast? = l2.getLast? := by
  induction l1 with
  | nil => rfl
  | cons a t ih =>
    rw [List.cons_append]
    cases ht : t ++ l2 with
    | nil => exact absurd (List.append_eq_nil.mp ht).2 h
    | cons b u => rw [List.getLast?_cons_cons, ← ht, ih]

theorem padEdgeFront_getLast (k : ℕ) (xs : List (Option ℚ)) (h : xs ≠ []) :
    (padEdgeFront k xs).getLast? = xs.getLast? := by
  cases xs with
  | nil => exact absurd rfl h
  | cons x t =>
    rw [padEdgeFront]
    exact getLast_append_right _ _ (by simp)

theorem vecRsiLast_eval (period : ℕ) (prices : List ℚ)
    (hp : 0 < period) (hl : period + 1 ≤ prices.length) :
    vecRsiLast period prices
      = some (100 - 100 / (1 + gainWindowMean period prices
          / (if lossWindowMean period prices = 0 then 1 else lossWindowMean period prices))) := by
  have hp0 : period ≠ 0 := Nat.pos_iff_ne_zero.mp hp
  have hlen : ¬ (prices.length < period) := by omega
  have hds : (diffs prices).length = prices.length - 1 := diffs_length prices
  have hglen : (gainsOf (diffs prices)).length = prices.length - 1 := by
    rw [gainsOf, List.length_map, hds]
  have hllen : (lossesOf (diffs prices)).length = prices.length - 1 := by
    rw [lossesOf, List.length_map, hds]
  have hple : period ≤ (gainsOf (diffs prices)).length := by omega
  have hple2 : period ≤ (lossesOf (diffs prices)).length := by omega
  have hG : gainWindowMean period prices
      = (tailSlice period (gainsOf (diffs prices))).sum / period := by
    rw [gainWindowMean, mean, tailSlice_length period _ hp0 hple]
  have hL : lossWindowMean period prices
      = (tailSlice period (lossesOf (diffs prices))).sum / period := by
    rw [lossWindowMean, mean, tailSlice_length period _ hp0 hple2]
  rw [vecRsiLast, calculate_rsi]
  rw [if_neg hlen, if_neg hp0]
  dsimp only
  have hagl : convUniform (gainsOf (diffs prices)) period
      = (List.range ((gainsOf (diffs prices)).length - period + 1)).map
          (fun i => (((gainsOf (diffs prices)).drop i).take period).sum / period) := by
    rw [convUniform, if_pos hple]
  have hall : convUniform (lossesOf (diffs prices)) period
      = (List.range ((lossesOf (diffs prices)).length - period + 1)).map
          (fun i => (((lossesOf (diffs prices)).drop i).take period).sum / period) := by
    rw [convUniform, if_pos hple2]
  rw [hagl, hall, hllen, ← hglen, zipWith_map_pair]
  set F := fun i => some ((100 : ℚ) - 100 /
      (1 + (((gainsOf (diffs prices)).drop i).take period).sum / period /
        (if (((lossesOf (diffs prices)).drop i).take period).sum / period = 0 then 1
         else (((lossesOf (diffs prices)).drop i).take period).sum / period))) with hF
  have hne : ((List.range ((gainsOf (diffs prices)).length - period + 1)).map F) ≠ [] := by
    simp [List.range_succ]
  rw [padEdgeFront_getLast _ _ hne]
  have hk : (gainsOf (diffs prices)).length - period + 1
      = ((gainsOf (diffs prices)).length - period) + 1 := rfl
  rw [hk, range_map_getLast]
  rw [hF]
  simp only
  rw [take_drop_tailSlice period _ hp0 hple]
  rw [hglen, ← hllen, take_drop_tailSlice period _ hp0 hple2]
  rw [← hG, ← hL]

theorem momentumRsi_eval (period : ℕ) (prices : List ℚ) (hl : 2 ≤ prices.length) :
    momentumRsi period prices
      = if lossWindowMean period prices = 0 then some 100
        else some (100 - 100 / (1 + gainWindowMean period prices
            / lossWindowMean period prices)) := by
  have hds : (diffs prices).isEmpty = false := by
    have hln := diffs_length prices
    cases hd : diffs prices with
    | nil => rw [hd] at hln; simp at hln; omega
    | cons a t => rfl
  rw [momentumRsi]
  dsimp only
  rw [hds]
  rfl

/-- Claim C4 (amended): for a series with at least `rsi_period + 1` closes
(positive period), both RSI implementations stay in `[0, 100]`; the
`calculate_momentum` RSI of `src/utils/risk_manager.py` equals exactly 100
whenever the trailing window's mean loss is 0, while the vectorised
`_calculate_rsi` of `src/market_analyzer.py` instead yields
`100 - 100/(1 + mean gain)` there (its `np.where(avg_loss == 0, 1, ...)`
substitutes 1 for the zero loss instead of saturating). -/
theorem rsi_range_and_saturation (period : ℕ) (prices : List ℚ)
    (hp : 0 < period) (hl : period + 1 ≤ prices.length) :
    (∃ v, momentumRsi period prices = some v ∧ 0 ≤ v ∧ v ≤ 100) ∧
    (lossWindowMean period prices = 0 → momentumRsi period prices = some 100) ∧
    (∃ w, vecRsiLast period prices = some w ∧ 0 ≤ w ∧ w ≤ 100) ∧
    (lossWindowMean period prices = 0 →
      vecRsiLast period prices = some (100 - 100 / (1 + gainWindowMean period prices))) := by
  have hl2 : 2 ≤ prices.length := by omega
  have hG : 0 ≤ gainWindowMean period prices :=
    mean_nonneg _ (fun x hx => gainsOf_nonneg _ x (mem_tailSlice _ _ x hx))
  have hL : 0 ≤ lossWindowMean period prices :=
    mean_nonneg _ (fun x hx => lossesOf_nonneg _ x (mem_tailSlice _ _ x hx))
  have hvec := vecRsiLast_eval period prices hp hl
  have hmom := momentumRsi_eval period prices hl2
  by_cases h0 : lossWindowMean period prices = 0
  · rw [if_pos h0] at hvec hmom
    rw [div_one] at hvec
    have hb := rsi_formula_bounds (gainWindowMean period prices) hG
    exact ⟨⟨100, hmom, by norm_num, le_refl 100⟩, fun _ => hmom,
      ⟨_, hvec, hb.1, hb.2⟩, fun _ => hvec⟩
  · rw [if_neg h0] at hvec hmom
    have hr : 0 ≤ gainWindowMean period prices / lossWindowMean period prices :=
      div_nonneg hG hL
    have hb := rsi_formula_bounds _ hr
    exact ⟨⟨_, hmom, hb.1, hb.2⟩, fun hc => absurd hc h0,
      ⟨_, hvec, hb.1, hb.2⟩, fun hc => absurd hc h0⟩

/-- Claim C4, counterexample: on the rising closes `[1, 2, 3]` with RSI
period 2 the trailing window has mean loss 0, yet the `_calculate_rsi`
value the analyzer's momentum reads is 50, not 100 — the claim's
"equals exactly 100 when the window contains no losses" fails on that
implementation. -/
theorem rsi_no_loss_not_saturated :
    0 < 2 ∧ 2 + 1 ≤ ([1, 2, 3] : List ℚ).length ∧
    lossWindowMean 2 [1, 2, 3] = 0 ∧
    vecRsiLast 2 [1, 2, 3] = some 50 ∧ (some (50 : ℚ) ≠ some (100 : ℚ)) := by
  refine ⟨by norm_num, by norm_num, ?_, ?_, by simp⟩
  · norm_num [lossWindowMean, tailSlice, lossesOf, diffs, mean]
  · norm_num [vecRsiLast, calculate_rsi, convUniform, diffs, gainsOf, lossesOf,
      padEdgeFront, List.range_succ, List.replicate]

/-- Witness for the amended C4 on the same no-loss window: the saturating
implementation yields exactly 100 and the vectorised one yields
`100 - 100/(1 + 1) = 50`. -/
theorem rsi_range_and_saturation_witness :
    0 < 2 ∧ 2 + 1 ≤ ([1, 2, 3] : List ℚ).length ∧
    lossWindowMean 2 [1, 2, 3] = 0 ∧
    momentumRsi 2 [1, 2, 3] = some 100 ∧
    vecRsiLast 2 [1, 2, 3] = some (100 - 100 / (1 + gainWindowMean 2 [1, 2, 3])) ∧
    gainWindowMean 2 [1, 2, 3] = 1 := by
  have h := rsi_range_and_saturation 2 [1, 2, 3] (by norm_num) (by norm_num)
  have h0 : lossWindowMean 2 [1, 2, 3] = 0 := by
    norm_num [lossWindowMean, tailSlice, lossesOf, diffs, mean]
  exact ⟨by norm_num, by norm_num, h0, h.2.1 h0, h.2.2.2 h0,
    by norm_num [gainWindowMean, tailSlice, gainsOf, diffs, mean]⟩


theorem stripA_proj (a1 a2 : Analysis) (h : stripA a1 = stripA a2) :
    a1.signal = a2.signal ∧ a1.confidence = a2.confidence := by
  have h1 := congrArg Analysis.signal h
  have h2 := congrArg Analysis.confidence h
  simp only [stripA] at h1 h2
  exact ⟨h1, h2⟩

theorem stripPos_proj (p1 p2 : Position) (h : stripPos p1 = stripPos p2) :
    p1.type = p2.type ∧ p1.entry_price = p2.entry_price ∧ p1.size = p2.size ∧
    p1.stop_loss = p2.stop_loss ∧ p1.take_profit = p2.take_profit ∧
    p1.entry_time = p2.entry_time ∧ p1.entry_capital = p2.entry_capital ∧
    stripA p1.metadata = stripA p2.metadata := by
  have h1 := congrArg Position.type h
  have h2 := congrArg Position.entry_price h
  have h3 := congrArg Position.size h
  have h4 := congrArg Position.stop_loss h
  have h5 := congrArg Position.take_profit h
  have h6 := congrArg Position.entry_time h
  have h7 := congrArg Position.entry_capital h
  have h8 := congrArg Position.metadata h
  simp only [stripPos] at h1 h2 h3 h4 h5 h6 h7 h8
  exact ⟨h1, h2, h3, h4, h5, h6, h7, h8⟩

theorem stripState_proj (s1 s2 : DState) (h : stripState s1 = stripState s2) :
    s1.current_capital = s2.current_capital ∧
    s1.equity_curve = s2.equity_curve ∧
    s1.drawdowns = s2.drawdowns ∧
    s1.tick = s2.tick ∧
    s1.rm = s2.rm ∧
    s1.positions.map stripPos = s2.positions.map stripPos ∧
    s1.trades_history.map stripTrade = s2.trades_history.map stripTrade := by
  have h1 := congrArg DState.current_capital h
  have h2 := congrArg DState.equity_curve h
  have h3 := congrArg DState.drawdowns h
  have h4 := congrArg DState.tick h
  have h5 := congrArg DState.rm h
  have h6 := congrArg DState.positions h
  have h7 := congrArg DState.trades_history h
  simp only [stripState] at h1 h2 h3 h4 h5 h6 h7
  exact ⟨h1, h2, h3, h4, h5, h6, h7⟩

theorem stripState_ext (s1 s2 : DState)
    (h1 : s1.current_capital = s2.current_capital)
    (h2 : s1.equity_curve = s2.equity_curve)
    (h3 : s1.drawdowns = s2.drawdowns)
    (h4 : s1.tick = s2.tick)
    (h5 : s1.rm = s2.rm)
    (h6 : s1.positions.map stripPos = s2.positions.map stripPos)
    (h7 : s1.trades_history.map stripTrade = s2.trades_history.map stripTrade) :
    stripState s1 = stripState s2 := by
  cases s1
  cases s2
  simp only [stripState] at *
  simp_all

theorem stripTrade_ext (t1 t2 : TradeRecord)
    (h1 : t1.type = t2.type) (h2 : t1.entry_price = t2.entry_price)
    (h3 : t1.exit_price = t2.exit_price) (h4 : t1.size = t2.size)
    (h5 : t1.pnl = t2.pnl) (h6 : t1.return_pct = t2.return_pct)
    (h7 : t1.entry_time = t2.entry_time) (h8 : t1.exit_reason = t2.exit_reason)
    (h9 : stripA t1.metadata = stripA t2.metadata) :
    stripTrade t1 = stripTrade t2 := by
  cases t1
  cases t2
  simp only [stripTrade] at *
  simp_all

theorem hit_congr (p1 p2 : Position) (bar : Bar) (h : stripPos p1 = stripPos p2) :
    hit_stop_loss p1 bar = hit_stop_loss p2 bar ∧
    hit_take_profit p1 bar = hit_take_profit p2 bar := by
  obtain ⟨ht, _, _, hsl, htp, _, _, _⟩ := stripPos_proj p1 p2 h
  rw [hit_stop_loss, hit_stop_loss, hit_take_profit, hit_take_profit, ht, hsl, htp]
  exact ⟨rfl, rfl⟩

theorem close_canon_congr (clk1 clk2 : ℕ → ℕ) (p1 p2 : Position) (x : ℚ) (r : ExitReason)
    (s1 s2 : DState) (hp : stripPos p1 = stripPos p2) (hs : stripState s1 = stripState s2) :
    (close_canon clk1 p1 x r s1).map stripState = (close_canon clk2 p2 x r s2).map stripState := by
  obtain ⟨ht, he, hsz, hsl, htp, het, hec, hmd⟩ := stripPos_proj p1 p2 hp
  obtain ⟨hc, heq, hdd, htk, hrm, hpos, htr⟩ := stripState_proj s1 s2 hs
  rw [close_canon, close_canon]
  by_cases h0 : p1.entry_capital = 0
  · have h0b : p2.entry_capital = 0 := by rw [← hec]; exact h0
    rw [if_pos h0, if_pos h0b]
  · have h0b : ¬ (p2.entry_capital = 0) := by rw [← hec]; exact h0
    rw [if_neg h0, if_neg h0b]
    simp only [Except.map, Except.ok.injEq]
    apply stripState_ext
    · dsimp only
      rw [hc, ht, he, hsz]
    · exact heq
    · exact hdd
    · dsimp only
      rw [htk]
    · exact hrm
    · exact hpos
    · dsimp only
      rw [List.map_append, List.map_append, htr]
      congr 1
      simp only [List.map_cons, List.map_nil]
      congr 1
      apply stripTrade_ext
      · exact ht
      · exact he
      · rfl
      · exact hsz
      · dsimp only
        rw [ht, he, hsz]
      · dsimp only
        rw [ht, he, hsz, hec]
      · exact het
      · rfl
      · exact hmd

theorem close_canon_error_congr (clk1 clk2 : ℕ → ℕ) (p1 p2 : Position) (x y : ℚ)
    (r r2 : ExitReason) (s1 s2 : DState) (hp : stripPos p1 = stripPos p2) (e : PyExc)
    (h : close_canon clk1 p1 x r s1 = .error e) : close_canon clk2 p2 y r2 s2 = .error e := by
  obtain ⟨ht, he, hsz, hsl, htp, het, hec, hmd⟩ := stripPos_proj p1 p2 hp
  rw [close_canon] at h ⊢
  by_cases h0 : p1.entry_capital = 0
  · have h0b : p2.entry_capital = 0 := by rw [← hec]; exact h0
    rw [if_pos h0] at h
    rw [if_pos h0b]
    exact h
  · rw [if_neg h0] at h
    exact absurd h (by simp)

theorem map_entry_time_of_strip (l1 l2 : List Position)
    (h : l1.map stripPos = l2.map stripPos) :
    l1.map Position.entry_time = l2.map Position.entry_time := by
  have h1 : (l1.map stripPos).map Position.entry_time = l1.map Position.entry_time := by
    rw [List.map_map]
    rfl
  have h2 : (l2.map stripPos).map Position.entry_time = l2.map Position.entry_time := by
    rw [List.map_map]
    rfl
  rw [← h1, ← h2, h]

theorem key_not_mem_head (done rest : List Position) (p : Position)
    (h : ((done ++ p :: rest).map Position.entry_time).Nodup) :
    ∀ q ∈ done, q ≠ p := by
  intro q hq he
  rw [List.map_append] at h
  have hd := (List.nodup_append.mp h).2.2
  exact hd (List.mem_map_of_mem Position.entry_time hq)
    (by rw [he]; simp)

theorem eraseP_keyed (done rest : List Position) (p : Position)
    (hnd : ∀ q ∈ done, q ≠ p) :
    (done ++ p :: rest).eraseP (fun q => decide (q = p)) = done ++ rest := by
  induction done with
  | nil => simp [List.eraseP_cons]
  | cons d ds ih =>
    rw [List.cons_append, List.eraseP_cons]
    have hd : (decide (d = p)) = false := by
      simp only [decide_eq_false_iff_not]
      exact hnd d (by simp)
    rw [hd, cond_false, ih (fun q hq => hnd q (by simp [hq]))]
    rfl

theorem close_canon_positions (clk : ℕ → ℕ) (p : Position) (x : ℚ) (r : ExitReason)
    (s c : DState) (h : close_canon clk p x r s = .ok c) : c.positions = s.positions := by
  rw [close_canon] at h
  split at h
  · cases h
  · cases h
    rfl

theorem close_position_positions (clk : ℕ → ℕ) (p : Position) (x : ℚ) (r : ExitReason)
    (s c : DState) (h : close_position clk p x r s = .ok c) :
    c.positions = s.positions.eraseP (fun q => decide (q = p)) := by
  rw [close_position] at h
  cases hcc : close_canon clk p x r s with
  | error e => rw [hcc] at h; cases h
  | ok c2 =>
    rw [hcc] at h
    cases h
    have h2 := close_canon_positions clk p x r s c2 hcc
    dsimp only
    rw [h2]

theorem close_position_congr (clk1 clk2 : ℕ → ℕ) (p1 p2 : Position) (x : ℚ) (r : ExitReason)
    (done1 t1 done2 t2 : List Position) (s1 s2 : DState)
    (hp : stripPos p1 = stripPos p2) (hs : stripState s1 = stripState s2)
    (h1 : s1.positions = done1 ++ p1 :: t1) (h2 : s2.positions = done2 ++ p2 :: t2)
    (hk1 : ∀ q ∈ done1, q ≠ p1) (hk2 : ∀ q ∈ done2, q ≠ p2)
    (hdone : done1.map stripPos = done2.map stripPos)
    (htail : t1.map stripPos = t2.map stripPos) :
    (close_position clk1 p1 x r s1).map stripState
      = (close_position clk2 p2 x r s2).map stripState ∧
    (∀ c1, close_position clk1 p1 x r s1 = .ok c1 → c1.positions = done1 ++ t1) ∧
    (∀ c2, close_position clk2 p2 x r s2 = .ok c2 → c2.positions = done2 ++ t2) := by
  refine ⟨?_, fun c1 hc => ?_, fun c2 hc => ?_⟩
  · have hmap := close_canon_congr clk1 clk2 p1 p2 x r s1 s2 hp hs
    rw [close_position, close_position]
    cases hc1 : close_canon clk1 p1 x r s1 with
    | error e =>
      have hc2 := close_canon_error_congr clk1 clk2 p1 p2 x x r r s1 s2 hp e hc1
      rw [hc2]
    | ok c1 =>
      cases hc2 : close_canon clk2 p2 x r s2 with
      | error e =>
        rw [hc1, hc2] at hmap
        simp [Except.map] at hmap
      | ok c2 =>
        rw [hc1, hc2] at hmap
        simp only [Except.map, Except.ok.injEq] at hmap ⊢
        obtain ⟨gc, geq, gdd, gtk, grm, gpos, gtr⟩ := stripState_proj c1 c2 hmap
        apply stripState_ext
        · exact gc
        · exact geq
        · exact gdd
        · exact gtk
        · exact grm
        · dsimp only
          rw [close_canon_positions _ _ _ _ _ _ hc1, close_canon_positions _ _ _ _ _ _ hc2,
            h1, h2, eraseP_keyed _ _ _ hk1, eraseP_keyed _ _ _ hk2,
            List.map_append, List.map_append, hdone, htail]
        · exact gtr
  · rw [close_position_positions _ _ _ _ _ _ hc, h1, eraseP_keyed _ _ _ hk1]
  · rw [close_position_positions _ _ _ _ _ _ hc, h2, eraseP_keyed _ _ _ hk2]

theorem except_strip_cases (r1 r2 : Except PyExc DState)
    (h : r1.map stripState = r2.map stripState) :
    (∃ e, r1 = .error e ∧ r2 = .error e) ∨
    (∃ c1 c2, r1 = .ok c1 ∧ r2 = .ok c2 ∧ stripState c1 = stripState c2) := by
  cases r1 with
  | error e1 =>
    cases r2 with
    | error e2 =>
      left
      simp only [Except.map, Except.error.injEq] at h
      exact ⟨e1, rfl, by rw [h]⟩
    | ok c2 => simp [Except.map] at h
  | ok c1 =>
    cases r2 with
    | error e2 => simp [Except.map] at h
    | ok c2 =>
      right
      simp only [Except.map, Except.ok.injEq] at h
      exact ⟨c1, c2, rfl, rfl, h⟩

theorem nodup_drop_mid (done t : List Position) (p : Position)
    (h : ((done ++ p :: t).map Position.entry_time).Nodup) :
    ((done ++ t).map Position.entry_time).Nodup := by
  refine List.Nodup.sublist (List.Sublist.map _ ?_) h
  exact List.Sublist.append_left (List.sublist_cons_self p t) done

theorem processGo_congr (clk1 clk2 : ℕ → ℕ) (bar : Bar) :
    ∀ (snap1 snap2 done1 done2 : List Position) (s1 s2 : DState),
    snap1.map stripPos = snap2.map stripPos →
    done1.map stripPos = done2.map stripPos →
    stripState s1 = stripState s2 →
    s1.positions = done1 ++ snap1 →
    s2.positions = done2 ++ snap2 →
    ((done1 ++ snap1).map Position.entry_time).Nodup →
    (processGo clk1 bar snap1 s1).map stripState
      = (processGo clk2 bar snap2 s2).map stripState := by
  intro snap1
  induction snap1 with
  | nil =>
    intro snap2 done1 done2 s1 s2 hsnap hdone hs h1 h2 hnd
    cases snap2 with
    | nil =>
      rw [processGo, processGo]
      simp only [Except.map, hs]
    | cons q t => simp at hsnap
  | cons p1 t1 ih =>
    intro snap2 done1 done2 s1 s2 hsnap hdone hs h1 h2 hnd
    cases snap2 with
    | nil => simp at hsnap
    | cons p2 t2 =>
      simp only [List.map_cons, List.cons.injEq] at hsnap
      obtain ⟨hp, htail⟩ := hsnap
      obtain ⟨_, _, _, hsl, htpp, _, _, _⟩ := stripPos_proj p1 p2 hp
      have hhit := hit_congr p1 p2 bar hp
      have hall : (done1 ++ p1 :: t1).map stripPos = (done2 ++ p2 :: t2).map stripPos := by
        rw [List.map_append, List.map_append, hdone]
        simp only [List.map_cons, hp, htail]
      have hnd2 : ((done2 ++ p2 :: t2).map Position.entry_time).Nodup := by
        rw [← map_entry_time_of_strip _ _ hall]
        exact hnd
      have hk1 : ∀ q ∈ done1, q ≠ p1 := key_not_mem_head done1 t1 p1 hnd
      have hk2 : ∀ q ∈ done2, q ≠ p2 := key_not_mem_head done2 t2 p2 hnd2
      have hndrec : ((done1 ++ t1).map Position.entry_time).Nodup := nodup_drop_mid _ _ _ hnd
      rw [processGo, processGo]
      by_cases hstop : hit_stop_loss p1 bar = true
      · have hstop2 : hit_stop_loss p2 bar = true := by rw [← hhit.1]; exact hstop
        rw [if_pos hstop, if_pos hstop2, ← hsl]
        have hcc := close_position_congr clk1 clk2 p1 p2 p1.stop_loss .stopLossHit
          done1 t1 done2 t2 s1 s2 hp hs h1 h2 hk1 hk2 hdone htail
        rcases except_strip_cases _ _ hcc.1 with ⟨e, he1, he2⟩ | ⟨c1, c2, hc1, hc2, hcs⟩
        · rw [he1, he2]
        · rw [hc1, hc2]
          exact ih t2 done1 done2 c1 c2 htail hdone hcs (hcc.2.1 c1 hc1) (hcc.2.2 c2 hc2) hndrec
      · have hstop2 : ¬ (hit_stop_loss p2 bar = true) := by rw [← hhit.1]; exact hstop
        rw [if_neg hstop, if_neg hstop2]
        by_cases htpb : hit_take_profit p1 bar = true
        · have htpb2 : hit_take_profit p2 bar = true := by rw [← hhit.2]; exact htpb
          rw [if_pos htpb, if_pos htpb2, ← htpp]
          have hcc := close_position_congr clk1 clk2 p1 p2 p1.take_profit .takeProfitHit
            done1 t1 done2 t2 s1 s2 hp hs h1 h2 hk1 hk2 hdone htail
          rcases except_strip_cases _ _ hcc.1 with ⟨e, he1, he2⟩ | ⟨c1, c2, hc1, hc2, hcs⟩
          · rw [he1, he2]
          · rw [hc1, hc2]
            exact ih t2 done1 done2 c1 c2 htail hdone hcs (hcc.2.1 c1 hc1) (hcc.2.2 c2 hc2) hndrec
        · have htpb2 : ¬ (hit_take_profit p2 bar = true) := by rw [← hhit.2]; exact htpb
          rw [if_neg htpb, if_neg htpb2]
          have hdone2 : (done1 ++ [p1]).map stripPos = (done2 ++ [p2]).map stripPos := by
            rw [List.map_append, List.map_append, hdone]
            simp [hp]
          have h1b : s1.positions = (done1 ++ [p1]) ++ t1 := by
            rw [h1, List.append_assoc]
            rfl
          have h2b : s2.positions = (done2 ++ [p2]) ++ t2 := by
            rw [h2, List.append_assoc]
            rfl
          have hndb : (((done1 ++ [p1]) ++ t1).map Position.entry_time).Nodup := by
            rw [List.append_assoc]
            exact hnd
          exact ih t2 (done1 ++ [p1]) (done2 ++ [p2]) s1 s2 htail hdone2 hs h1b h2b hndb

theorem analyze_body_strip (cfg : Config) (rmA : RMState) (ops : FloatOps) (t1 t2 : ℕ)
    (f : Frame) :
    (analyze_body cfg rmA ops t1 f).map stripA = (analyze_body cfg rmA ops t2 f).map stripA := by
  rw [analyze_body, analyze_body]
  cases hpre : analyzePre cfg ops f with
  | error e => rfl
  | ok tup =>
    obtain ⟨tr, mo, vo, vl⟩ := tup
    cases hlast : (f.rows.map Bar.close).getLast? with
    | none => rfl
    | some c => simp [Except.map, stripA, generate_signal]

theorem analyze_market_strip (cfg : Config) (rmA : RMState) (ops : FloatOps) (t1 t2 : ℕ)
    (f : Frame) :
    stripA (analyze_market cfg rmA ops t1 f) = stripA (analyze_market cfg rmA ops t2 f) := by
  have hmap := analyze_body_strip cfg rmA ops t1 t2 f
  rw [analyze_market, analyze_market]
  split
  · rfl
  · split
    · rfl
    · split
      · rfl
      · cases hb1 : analyze_body cfg rmA ops t1 f with
        | error e1 =>
          cases hb2 : analyze_body cfg rmA ops t2 f with
          | error e2 =>
            rw [hb1, hb2] at hmap
            simp only [Except.map, Except.error.injEq] at hmap
            rw [hmap]
          | ok a2 =>
            rw [hb1, hb2] at hmap
            simp [Except.map] at hmap
        | ok a1 =>
          cases hb2 : analyze_body cfg rmA ops t2 f with
          | error e2 =>
            rw [hb1, hb2] at hmap
            simp [Except.map] at hmap
          | ok a2 =>
            rw [hb1, hb2] at hmap
            simp only [Except.map, Except.ok.injEq] at hmap
            exact hmap

theorem execute_trade_congr (cfg : Config) (a1 a2 : Analysis) (bar : Bar) (s1 s2 : DState)
    (ha : stripA a1 = stripA a2) (hs : stripState s1 = stripState s2) :
    stripState (execute_trade cfg a1 bar s1) = stripState (execute_trade cfg a2 bar s2) := by
  obtain ⟨hsig, hconf⟩ := stripA_proj a1 a2 ha
  obtain ⟨hc, heq, hdd, htk, hrm, hpos, htr⟩ := stripState_proj s1 s2 hs
  rw [execute_trade, execute_trade]
  apply stripState_ext
  · exact hc
  · exact heq
  · exact hdd
  · exact htk
  · exact hrm
  · dsimp only
    rw [List.map_append, List.map_append, hpos]
    congr 1
    simp only [List.map_cons, List.map_nil]
    congr 1
    rw [stripPos, stripPos]
    simp only [hsig, hc, hrm, ha]
  · exact htr

theorem update_metrics_congr (s1 s2 : DState) (hs : stripState s1 = stripState s2) :
    (update_metrics s1).map stripState = (update_metrics s2).map stripState := by
  obtain ⟨hc, heq, hdd, htk, hrm, hpos, htr⟩ := stripState_proj s1 s2 hs
  rw [update_metrics, update_metrics]
  rw [heq, hc]
  by_cases h0 : listMax (s2.equity_curve ++ [s2.current_capital]) = 0
  · rw [if_pos h0, if_pos h0]
  · rw [if_neg h0, if_neg h0]
    simp only [Except.map, Except.ok.injEq]
    apply stripState_ext <;> dsimp only
    · rw [hdd]
    · rw [htk]
    · rw [hrm]
    · exact hpos
    · exact htr

theorem tick_update_strip (s1 s2 : DState) (n : ℕ) (hs : stripState s1 = stripState s2) :
    stripState { s1 with tick := s1.tick + n } = stripState { s2 with tick := s2.tick + n } := by
  obtain ⟨hc, heq, hdd, htk, hrm, hpos, htr⟩ := stripState_proj s1 s2 hs
  apply stripState_ext
  · exact hc
  · exact heq
  · exact hdd
  · dsimp only
    rw [htk]
  · exact hrm
  · exact hpos
  · exact htr

theorem should_execute_congr (cfg : Config) (a1 a2 : Analysis) (s1 s2 : DState)
    (ha : stripA a1 = stripA a2) (hs : stripState s1 = stripState s2) :
    should_execute_trade cfg s1 a1 = should_execute_trade cfg s2 a2 := by
  obtain ⟨hsig, hconf⟩ := stripA_proj a1 a2 ha
  have hpos := (stripState_proj s1 s2 hs).2.2.2.2.2.1
  have hlen : s1.positions.length = s2.positions.length := by
    have h2 := congrArg List.length hpos
    simpa using h2
  rw [should_execute_trade, should_execute_trade, hsig, hconf, hlen]

theorem barStep_congr (cfg : Config) (rmA : RMState) (ops : FloatOps) (clk1 clk2 : ℕ → ℕ)
    (hc hv : Bool) (seen : List Bar) (next : Bar) (s1 s2 : DState)
    (hs : stripState s1 = stripState s2)
    (hnd : (s1.positions.map Position.entry_time).Nodup) :
    (barStep cfg rmA ops clk1 hc hv seen next s1).map stripState
      = (barStep cfg rmA ops clk2 hc hv seen next s2).map stripState := by
  have hpp := processGo_congr clk1 clk2 next s1.positions s2.positions [] [] s1 s2
    (stripState_proj s1 s2 hs).2.2.2.2.2.1 rfl hs rfl rfl (by simpa using hnd)
  rw [barStep, barStep, process_open_positions, process_open_positions]
  rcases except_strip_cases _ _ hpp with ⟨e, he1, he2⟩ | ⟨c1, c2, hc1, hc2, hcs⟩
  · rw [he1, he2]
  · rw [hc1, hc2]
    dsimp only
    set F : Frame := { hasClose := hc, hasVolume := hv, rows := seen } with hF
    have ha := analyze_market_strip cfg rmA ops (clk1 (c1.tick + 1)) (clk2 (c2.tick + 1)) F
    have hsx : stripState { c1 with tick := c1.tick + analyzeTicks cfg ops F }
        = stripState { c2 with tick := c2.tick + analyzeTicks cfg ops F } :=
      tick_update_strip c1 c2 _ hcs
    have hb := should_execute_congr cfg _ _ _ _ ha hsx
    by_cases hba : should_execute_trade cfg { c1 with tick := c1.tick + analyzeTicks cfg ops F }
        (analyze_market cfg rmA ops (clk1 (c1.tick + 1)) F) = true
    · have hbb : should_execute_trade cfg { c2 with tick := c2.tick + analyzeTicks cfg ops F }
          (analyze_market cfg rmA ops (clk2 (c2.tick + 1)) F) = true := by
        rw [← hb]
        exact hba
      rw [if_pos hba, if_pos hbb]
      exact update_metrics_congr _ _ (execute_trade_congr cfg _ _ next _ _ ha hsx)
    · have hbb : ¬ (should_execute_trade cfg { c2 with tick := c2.tick + analyzeTicks cfg ops F }
          (analyze_market cfg rmA ops (clk2 (c2.tick + 1)) F) = true) := by
        rw [← hb]
        exact hba
      rw [if_neg hba, if_neg hbb]
      exact update_metrics_congr _ _ hsx

theorem processGo_positions_sublist (clk : ℕ → ℕ) (bar : Bar) :
    ∀ (snap : List Position) (s sr : DState),
    processGo clk bar snap s = .ok sr → sr.positions.Sublist s.positions := by
  intro snap
  induction snap with
  | nil =>
    intro s sr h
    rw [processGo] at h
    cases h
    exact List.Sublist.refl _
  | cons p t ih =>
    intro s sr h
    rw [processGo] at h
    by_cases hstop : hit_stop_loss p bar = true
    · rw [if_pos hstop] at h
      cases hcp : close_position clk p p.stop_loss .stopLossHit s with
      | error e => rw [hcp] at h; cases h
      | ok c =>
        rw [hcp] at h
        refine (ih c sr h).trans ?_
        rw [close_position_positions _ _ _ _ _ _ hcp]
        exact List.eraseP_sublist _
    · rw [if_neg hstop] at h
      by_cases htp : hit_take_profit p bar = true
      · rw [if_pos htp] at h
        cases hcp : close_position clk p p.take_profit .takeProfitHit s with
        | error e => rw [hcp] at h; cases h
        | ok c =>
          rw [hcp] at h
          refine (ih c sr h).trans ?_
          rw [close_position_positions _ _ _ _ _ _ hcp]
          exact List.eraseP_sublist _
      · rw [if_neg htp] at h
        exact ih s sr h

theorem barStep_positions (cfg : Config) (rmA : RMState) (ops : FloatOps) (clk : ℕ → ℕ)
    (hc hv : Bool) (seen : List Bar) (next : Bar) (s sr : DState)
    (h : barStep cfg rmA ops clk hc hv seen next s = .ok sr) :
    ∃ base, base.Sublist s.positions ∧
      (sr.positions = base ∨
        ∃ q : Position, q.entry_time = next.name ∧ sr.positions = base ++ [q]) := by
  rw [barStep, process_open_positions] at h
  cases hps : processGo clk next s.positions s with
  | error e => rw [hps] at h; cases h
  | ok c =>
    rw [hps] at h
    dsimp only at h
    have hsub := processGo_positions_sublist clk next s.positions s c hps
    refine ⟨c.positions, hsub, ?_⟩
    set F : Frame := { hasClose := hc, hasVolume := hv, rows := seen } with hF
    set c2 : DState := { c with tick := c.tick + analyzeTicks cfg ops F } with hc2
    by_cases hba : should_execute_trade cfg c2
        (analyze_market cfg rmA ops (clk (c.tick + 1)) F) = true
    · rw [if_pos hba] at h
      rw [update_metrics] at h
      split at h
      · cases h
      · cases h
        right
        rw [execute_trade]
        refine ⟨_, ?_, rfl⟩
        rfl
    · rw [if_neg hba] at h
      rw [update_metrics] at h
      split at h
      · cases h
      · cases h
        left
        rfl

theorem runLoop_congr (cfg : Config) (rmA : RMState) (ops : FloatOps) (clk1 clk2 : ℕ → ℕ)
    (hc hv : Bool) :
    ∀ (rest : List Bar) (seen : List Bar) (s1 s2 : DState),
    stripState s1 = stripState s2 →
    (s1.positions.map Position.entry_time).Nodup →
    (∀ p ∈ s1.positions, ∀ b ∈ rest, p.entry_time < b.name) →
    List.Pairwise (fun a b : Bar => a.name < b.name) rest →
    (runLoop cfg rmA ops clk1 hc hv seen rest s1).map stripState
      = (runLoop cfg rmA ops clk2 hc hv seen rest s2).map stripState := by
  intro rest
  induction rest with
  | nil =>
    intro seen s1 s2 hs _ _ _
    rw [runLoop_nil, runLoop_nil]
    simp only [Except.map, hs]
  | cons next rest ih =>
    intro seen s1 s2 hs hnd hbd hpw
    rw [runLoop, runLoop]
    have hstep := barStep_congr cfg rmA ops clk1 clk2 hc hv seen next s1 s2 hs hnd
    rcases except_strip_cases _ _ hstep with ⟨e, he1, he2⟩ | ⟨c1, c2, hc1, hc2, hcs⟩
    · rw [he1, he2]
    · rw [hc1, hc2]
      obtain ⟨base, hbs, hshape⟩ := barStep_positions cfg rmA ops clk1 hc hv seen next s1 c1 hc1
      have hbknd : (base.map Position.entry_time).Nodup :=
        List.Nodup.sublist (hbs.map _) hnd
      have hbbd : ∀ p ∈ base, ∀ b ∈ rest, p.entry_time < b.name :=
        fun p hp b hb => hbd p (hbs.subset hp) b (by simp [hb])
      have hbd0 : ∀ p ∈ base, p.entry_time < next.name :=
        fun p hp => hbd p (hbs.subset hp) next (by simp)
      have hnext : ∀ b ∈ rest, next.name < b.name := (List.pairwise_cons.mp hpw).1
      have hpw2 := (List.pairwise_cons.mp hpw).2
      have hc1nd : (c1.positions.map Position.entry_time).Nodup := by
        rcases hshape with heq | ⟨q, hq, heq⟩
        · rw [heq]
          exact hbknd
        · rw [heq, List.map_append]
          refine List.Nodup.append hbknd (by simp) ?_
          intro a ha hb
          simp only [List.map_cons, List.map_nil, List.mem_singleton] at hb
          obtain ⟨p, hp, rfl⟩ := List.mem_map.mp ha
          have hlt := hbd0 p hp
          rw [hb, hq] at hlt
          exact lt_irrefl _ hlt
      have hc1bd : ∀ p ∈ c1.positions, ∀ b ∈ rest, p.entry_time < b.name := by
        rcases hshape with heq | ⟨q, hq, heq⟩
        · rw [heq]
          exact hbbd
        · rw [heq]
          intro p hp b hb
          rcases List.mem_append.mp hp with hmem | hmem
          · exact hbbd p hmem b hb
          · simp only [List.mem_singleton] at hmem
            subst hmem
            rw [hq]
            exact hnext b hb
      exact ih (seen ++ [next]) c1 c2 hcs hc1nd hc1bd hpw2

theorem map_stripTrade_proj (g : TradeRecord → ℚ) (hg : ∀ t, g (stripTrade t) = g t)
    (l1 l2 : List TradeRecord) (h : l1.map stripTrade = l2.map stripTrade) :
    l1.map g = l2.map g := by
  have hgf : g ∘ stripTrade = g := funext hg
  have hmg : ∀ l : List TradeRecord, l.map g = (l.map stripTrade).map g := by
    intro l
    rw [List.map_map, hgf]
  rw [hmg l1, hmg l2, h]

theorem filter_stripTrade_comm (p : TradeRecord → Bool) (hp : ∀ t, p (stripTrade t) = p t)
    (l : List TradeRecord) :
    (l.filter p).map stripTrade = (l.map stripTrade).filter p := by
  have hpf : p ∘ stripTrade = p := funext hp
  rw [List.filter_map, hpf]

theorem filter_stripTrade_congr (p : TradeRecord → Bool) (hp : ∀ t, p (stripTrade t) = p t)
    (l1 l2 : List TradeRecord) (h : l1.map stripTrade = l2.map stripTrade) :
    (l1.filter p).map stripTrade = (l2.filter p).map stripTrade := by
  rw [filter_stripTrade_comm p hp, filter_stripTrade_comm p hp, h]

theorem map_stripTrade_length (l1 l2 : List TradeRecord)
    (h : l1.map stripTrade = l2.map stripTrade) : l1.length = l2.length := by
  have := congrArg List.length h
  simpa using this

theorem calculate_trade_metrics_congr (l1 l2 : List TradeRecord)
    (h : l1.map stripTrade = l2.map stripTrade) :
    calculate_trade_metrics l1 = calculate_trade_metrics l2 := by
  have hislen : ∀ (a b : List TradeRecord), a.length = b.length → a.isEmpty = b.isEmpty := by
    intro a b hab
    cases a <;> cases b <;> simp_all
  have hlen := map_stripTrade_length l1 l2 h
  have hpnl : l1.map TradeRecord.pnl = l2.map TradeRecord.pnl :=
    map_stripTrade_proj TradeRecord.pnl (fun _ => rfl) l1 l2 h
  have hw := filter_stripTrade_congr (fun t => decide (0 < t.pnl)) (fun _ => rfl) l1 l2 h
  have hl := filter_stripTrade_congr (fun t => decide (t.pnl < 0)) (fun _ => rfl) l1 l2 h
  have hwlen := map_stripTrade_length _ _ hw
  have hllen := map_stripTrade_length _ _ hl
  have hwpnl := map_stripTrade_proj TradeRecord.pnl (fun _ => rfl) _ _ hw
  have hlpnl := map_stripTrade_proj TradeRecord.pnl (fun _ => rfl) _ _ hl
  have hemp : l1.isEmpty = l2.isEmpty := hislen _ _ hlen
  have hwemp : (l1.filter (fun t => decide (0 < t.pnl))).isEmpty
      = (l2.filter (fun t => decide (0 < t.pnl))).isEmpty := hislen _ _ hwlen
  have hlemp : (l1.filter (fun t => decide (t.pnl < 0))).isEmpty
      = (l2.filter (fun t => decide (t.pnl < 0))).isEmpty := hislen _ _ hllen
  simp only [calculate_trade_metrics]
  rw [hemp, hlen, hwlen, hwemp, hlemp, hwpnl, hlpnl, hpnl]

theorem generate_report_congr (cfg : Config) (ops : FloatOps) (s1 s2 : DState)
    (h : stripState s1 = stripState s2) :
    (generate_backtest_report cfg ops s1).map stripReport
      = (generate_backtest_report cfg ops s2).map stripReport := by
  obtain ⟨hcap, heq, hdd, -, -, -, hth⟩ := stripState_proj s1 s2 h
  have hret : s1.trades_history.map TradeRecord.return_pct
      = s2.trades_history.map TradeRecord.return_pct :=
    map_stripTrade_proj TradeRecord.return_pct (fun _ => rfl) _ _ hth
  have hlen := map_stripTrade_length _ _ hth
  have hwin := map_stripTrade_length _ _
    (filter_stripTrade_congr (fun t => decide (0 < t.pnl)) (fun _ => rfl) _ _ hth)
  rw [generate_backtest_report, generate_backtest_report]
  by_cases h0 : cfg.initial_capital = 0
  · rw [if_pos h0, if_pos h0]
  · rw [if_neg h0, if_neg h0]
    simp only [Except.map, Except.ok.injEq, stripReport]
    rw [hcap, hret, hlen, hwin, hdd, heq, hth, trade_metrics_of, trade_metrics_of,
      calculate_trade_metrics_congr _ _ hth]

theorem run_backtest_eq_body (cfg : Config) (ops : FloatOps) (clk : ℕ → ℕ) (f : Frame) :
    run_backtest cfg ops clk f = run_body cfg ops clk f := by
  rw [run_backtest]
  cases run_body cfg ops clk f <;> rfl

/-- Claim C6 (amended): the backtest report is a deterministic function of the input
series and configuration up to the wall-clock timestamp fields (each trade
record carries `exit_time` from `datetime.now()` and an analysis timestamp in
its metadata): for any two clock environments and a series with strictly
increasing bar timestamps, the two runs agree after those timestamp fields
are erased — the original claim of fully identical reports is refuted by
`run_report_depends_on_clock`. -/
theorem run_deterministic_up_to_timestamps (cfg : Config) (ops : FloatOps)
    (clk1 clk2 : ℕ → ℕ) (f : Frame)
    (hmono : List.Pairwise (fun a b : Bar => a.name < b.name) f.rows) :
    (run_backtest cfg ops clk1 f).map stripReport
      = (run_backtest cfg ops clk2 f).map stripReport := by
  rw [run_backtest_eq_body, run_backtest_eq_body, run_body, run_body]
  cases hf : f.rows with
  | nil => rfl
  | cons b rest =>
    rw [hf] at hmono
    dsimp only
    have hpw := (List.pairwise_cons.mp hmono).2
    have hloop := runLoop_congr cfg (initRM cfg) ops clk1 clk2 f.hasClose f.hasVolume
      rest [b] (initState cfg) (initState cfg) rfl (by simp [initState])
      (by simp [initState]) hpw
    rcases except_strip_cases _ _ hloop with ⟨e, h1, h2⟩ | ⟨c1, c2, h1, h2, hcs⟩
    · rw [h1, h2]
    · rw [h1, h2]
      exact generate_report_congr cfg ops c1 c2 hcs

theorem run_deterministic_up_to_timestamps_witness :
    List.Pairwise (fun a b : Bar => a.name < b.name) cexFrame.rows ∧
    (run_backtest cexCfg idOps (clkConst 0) cexFrame).map stripReport
      = (run_backtest cexCfg idOps (clkConst 1) cexFrame).map stripReport :=
  ⟨by decide,
   run_deterministic_up_to_timestamps cexCfg idOps (clkConst 0) (clkConst 1) cexFrame
     (by decide)⟩

end MasterAgent
